import Mathlib

/-!
Verification of the osm-pbf-parser-node streaming decoder (src/parser.js)
against its natural-language specification.

The embedding follows the source file src/parser.js.  Machine numbers of the
JavaScript source are modelled as Nat/Int; JavaScript floating-point
coordinate arithmetic is modelled exactly over the rationals (the spec allows
a 1e-9 tolerance, which exact arithmetic satisfies).  Fallible code (the
assert helper, which throws an Error) is modelled with Except String, the
error strings being the thrown messages.  The generated protobuf message
readers (proto/fileformat.js, proto/osmformat.js) are not part of the
verified source; decoded messages are the starting point of the entity
layer, and where the frame machine invokes them they appear as function
parameters (in the source they are pure functions of the byte slice they
are handed).
-/

set_option autoImplicit false

namespace OsmPbf

/-! ## Frame reassembler (OSMTransform._transform / _flush, src/parser.js 58-135)

The transform keeps a byte buffer, an offset, a status in 0..3 and a count
of needed bytes.  Status 0 (expecting the big-endian uint32 length) always
has needed = 4: the constructor sets status 0 / needed 4, and every
assignment of status 0 (src/parser.js 100-101, 116-117) sets needed to 4.
The embedding therefore carries the needed counter inside the status, which
is exactly the reachable part of the JavaScript state. -/

/-- The decode functions the transform loop calls on byte slices.
readBlobHeader yields the (type, datasize) pair of BlobHeader.read
(src/parser.js 85-89); decodeHeader is the status-2 path (Blob decode,
decompress, HeaderBlock decode, src/parser.js 94-98), none meaning its
assert fired; decodeData is the status-3 path (Blob decode, inflate, parse,
src/parser.js 104-113), none meaning its assert fired.  All three are pure
functions of the byte slice buffer[offset .. offset+needed). -/
structure Decoders (α : Type) where
  readBlobHeader : List Nat → String × Nat
  decodeHeader : List Nat → Option α
  decodeData : List Nat → Option α

/-- The status of the transform together with the needed-byte counter
(src/parser.js 50-52): s0 expects the 4-byte length, s1 a BlobHeader of n
bytes, s2 an OSMHeader blob of n bytes, s3 an OSMData blob of n bytes. -/
inductive FrameStatus where
  | s0
  | s1 (n : Nat)
  | s2 (n : Nat)
  | s3 (n : Nat)
  deriving DecidableEq, Repr

/-- Number of bytes that must be buffered before the status advances
(src/parser.js 73). -/
def FrameStatus.needed : FrameStatus → Nat
  | .s0 => 4
  | .s1 n => n
  | .s2 n => n
  | .s3 n => n

/-- Auxiliary rank, used only for termination of the consume loop. -/
def FrameStatus.rank : FrameStatus → Nat
  | .s0 => 0
  | .s1 _ => 2
  | .s2 _ => 1
  | .s3 _ => 1

/-- Big-endian uint32 read of the first four buffered bytes
(buffer.readUInt32BE at the current offset, src/parser.js 78). -/
def readUInt32BE (l : List Nat) : Nat :=
  (l.take 4).foldl (fun a b => a * 256 + b) 0

/-- One iteration of the while-true loop of _transform, acting on the slice
buffer[offset .. offset+needed): status 0 reads the length and moves to
status 1 (src/parser.js 76-82); status 1 decodes the BlobHeader, checks its
type and moves to status 2 or 3 (src/parser.js 84-91); statuses 2 and 3
decode the blob payload, push one batch and return to status 0
(src/parser.js 93-118).  The pushed batches are returned in the list. -/
def step {α : Type} (D : Decoders α) (st : FrameStatus) (slice : List Nat) :
    Except String (List α × FrameStatus) :=
  match st with
  | .s0 => .ok ([], .s1 (readUInt32BE slice))
  | .s1 _ =>
      let hd := D.readBlobHeader slice
      if hd.1 = "OSMHeader" then .ok ([], .s2 hd.2)
      else if hd.1 = "OSMData" then .ok ([], .s3 hd.2)
      else .error "input sequence error"
  | .s2 _ =>
      match D.decodeHeader slice with
      | some b => .ok ([b], .s0)
      | none => .error "inflating undefined not implemented"
  | .s3 _ =>
      match D.decodeData slice with
      | some b => .ok ([b], .s0)
      | none => .error "inflating undefined not implemented"

/-- The while-true loop of _transform (src/parser.js 72-119): starting from
a status, greedily consume frames from the buffered bytes, returning the
pushed batches, the final status and the unconsumed tail (which is always
shorter than the final status's needed count).  Errors are the assert
throws of the loop body. -/
def consume {α : Type} (D : Decoders α) (st : FrameStatus) (buf : List Nat) :
    Except String (List α × FrameStatus × List Nat) :=
  if buf.length < st.needed then .ok ([], st, buf)
  else
    match hstep : step D st (buf.take st.needed) with
    | .ok (o, st2) =>
        match consume D st2 (buf.drop st.needed) with
        | .ok (o2, st3, rest) => .ok (o ++ o2, st3, rest)
        | .error e => .error e
    | .error e => .error e
termination_by 3 * buf.length + st.rank
decreasing_by
  simp only [List.length_drop]
  rename_i hge
  cases st with
  | s0 =>
      simp only [step, Except.ok.injEq, Prod.mk.injEq] at hstep
      obtain ⟨-, rfl⟩ := hstep
      simp only [FrameStatus.needed, not_lt] at hge
      simp only [FrameStatus.rank, FrameStatus.needed]
      omega
  | s1 n =>
      simp only [step] at hstep
      split at hstep <;> [skip; split at hstep]
      · simp only [Except.ok.injEq, Prod.mk.injEq] at hstep
        obtain ⟨-, rfl⟩ := hstep
        simp only [FrameStatus.rank, FrameStatus.needed]
        omega
      · simp only [Except.ok.injEq, Prod.mk.injEq] at hstep
        obtain ⟨-, rfl⟩ := hstep
        simp only [FrameStatus.rank, FrameStatus.needed]
        omega
      · exact absurd hstep (by simp)
  | s2 n =>
      simp only [step] at hstep
      cases hdec : D.decodeHeader (List.take (FrameStatus.s2 n).needed buf) with
      | some b =>
          rw [hdec] at hstep
          simp only [Except.ok.injEq, Prod.mk.injEq] at hstep
          obtain ⟨-, rfl⟩ := hstep
          simp only [FrameStatus.rank, FrameStatus.needed]
          omega
      | none => rw [hdec] at hstep; exact absurd hstep (by simp)
  | s3 n =>
      simp only [step] at hstep
      cases hdec : D.decodeData (List.take (FrameStatus.s3 n).needed buf) with
      | some b =>
          rw [hdec] at hstep
          simp only [Except.ok.injEq, Prod.mk.injEq] at hstep
          obtain ⟨-, rfl⟩ := hstep
          simp only [FrameStatus.rank, FrameStatus.needed]
          omega
      | none => rw [hdec] at hstep; exact absurd hstep (by simp)

/-- State of the transform between chunks: the status (with its needed
count) and the unconsumed buffered bytes (buffer minus offset). -/
structure TransformState where
  status : FrameStatus
  leftover : List Nat
  deriving DecidableEq, Repr

/-- One _transform call (src/parser.js 58-125): concatenate the unconsumed
tail with the arriving chunk and run the consume loop. -/
def transformChunk {α : Type} (D : Decoders α) (s : TransformState)
    (chunk : List Nat) : Except String (List α × TransformState) :=
  match consume D s.status (s.leftover ++ chunk) with
  | .ok (out, st, rest) => .ok (out, ⟨st, rest⟩)
  | .error e => .error e

/-- Feeding a list of chunks in order, collecting all pushed batches. -/
def runChunks {α : Type} (D : Decoders α) (s : TransformState) :
    List (List Nat) → Except String (List α × TransformState)
  | [] => .ok ([], s)
  | c :: cs =>
      match transformChunk D s c with
      | .ok (o1, s1) =>
          match runChunks D s1 cs with
          | .ok (o2, s2) => .ok (o1 ++ o2, s2)
          | .error e => .error e
      | .error e => .error e

/-- Whether the status is the initial status 0. -/
def FrameStatus.isS0 : FrameStatus → Bool
  | .s0 => true
  | _ => false

/-- A whole stream run: all chunks through _transform, then _flush
(src/parser.js 127-134).  _flush asserts that the buffer is fully consumed
and the status is 0.  When no chunk was ever written the buffer field is
still null and _flush faults reading buffer.length; that is the
empty-chunk-list branch. -/
def runAll {α : Type} (D : Decoders α) (chunks : List (List Nat)) :
    Except String (List α) :=
  match chunks with
  | [] => .error "TypeError: buffer is null"
  | _ :: _ =>
      match runChunks D ⟨.s0, []⟩ chunks with
      | .ok (out, s) =>
          if s.leftover.isEmpty && s.status.isS0 then .ok out
          else .error "input format error"
      | .error e => .error e

/-! ## Blob payload handling (src/parser.js 93-96 and 103-105)

A decoded Blob message as delivered by BlobData.read: the raw and
zlib_data byte fields are null when absent (pbf decodes an absent bytes
field as null). -/

/-- A decoded Blob message: raw bytes and/or zlib-compressed bytes. -/
structure BlobMsg where
  raw : Option (List Nat) := none
  zlib_data : Option (List Nat) := none
  deriving DecidableEq, Repr

/-- The status-2 (OSMHeader) payload selection, src/parser.js 95-96:
buf = blob.zlib_data ? inflateSync(blob.zlib_data) : blob.raw, then
assert(buf).  inflate stands for the external zlib capability. -/
def headerBlobBytes (inflate : List Nat → List Nat) (b : BlobMsg) :
    Except String (List Nat) :=
  match b.zlib_data with
  | some z => .ok (inflate z)
  | none =>
      match b.raw with
      | some r => .ok r
      | none => .error "inflating undefined not implemented"

/-- The status-3 (OSMData) payload selection, src/parser.js 105:
assert(blob.zlib_data, ...); the raw field is never consulted. -/
def dataBlobBytes (b : BlobMsg) : Except String (List Nat) :=
  match b.zlib_data with
  | some z => .ok z
  | none => .error "inflating undefined not implemented"

/-! ## Tag-filter configuration (with_tags, src/parser.js 137-157) -/

/-- The normalized per-entity tag selection the parser consults: true
(include all), false or the absent property (include none; with_tags
returns an empty object for a non-boolean non-object option, whose absent
properties are falsy exactly like false at every use site), or the Set of
admitted keys. -/
inductive TagSel where
  | yes
  | no
  | only (keys : List String)
  deriving DecidableEq, Repr

/-- Result of with_tags: one selection per entity kind. -/
structure NormTags where
  node : TagSel
  way : TagSel
  relation : TagSel
  deriving DecidableEq, Repr

/-- Truthiness of the stored selection (the if (data.withTags.node) tests,
src/parser.js 231, 263, 291, 331). -/
def TagSel.isOn : TagSel → Bool
  | .no => false
  | _ => true

/-- The per-key filter decision: filter = sel === true ? false : sel;
!filter || filter.has(key) (src/parser.js 233-237 and peers).  The .no case
is unreachable behind isOn. -/
def tagKeep : TagSel → String → Bool
  | .yes, _ => true
  | .no, _ => false
  | .only l, k => l.contains k

/-- The shapes a per-entity property of the withTags option can have on the
JavaScript side: a boolean, an array of strings, or any other value.  A
missing (or nullish) property is handled by opt[k] ?? true before this
classification (src/parser.js 143). -/
inductive JVal where
  | vbool (b : Bool)
  | varr (l : List String)
  | vother
  deriving DecidableEq, Repr

/-- The shapes the withTags option itself can have: a boolean; a non-null
object (a top-level array also lands here, with all three properties
absent); or any other value (number, string, ...), for which the
typeof opt == 'object' test fails. -/
inductive JOpt where
  | obool (b : Bool)
  | oobj (node way relation : Option JVal)
  | oother
  deriving DecidableEq, Repr

/-- Normalization of one per-entity property value (src/parser.js 143-151):
booleans are kept, a non-empty array becomes a Set, an empty array becomes
false, anything else is a configuration error (none). -/
def normJVal : JVal → Option TagSel
  | .vbool true => some .yes
  | .vbool false => some .no
  | .varr [] => some .no
  | .varr l => some (.only l)
  | .vother => none

/-- with_tags (src/parser.js 137-157).  A boolean applies to all three
kinds; a non-null object is normalized per property with missing
properties defaulting to true; any bad property value throws
'wrong withTags option.'.  A non-boolean non-object value skips the object
branch and returns the empty result object, whose absent properties are
falsy (modelled .no). -/
def with_tags : JOpt → Except String NormTags
  | .obool true => .ok ⟨.yes, .yes, .yes⟩
  | .obool false => .ok ⟨.no, .no, .no⟩
  | .oobj n w r =>
      match normJVal (n.getD (.vbool true)), normJVal (w.getD (.vbool true)),
          normJVal (r.getD (.vbool true)) with
      | some sn, some sw, some sr => .ok ⟨sn, sw, sr⟩
      | _, _, _ => .error "wrong withTags option."
  | .oother => .ok ⟨.no, .no, .no⟩

/-! ## Decoded OSM messages (inputs of the entity reconstructor)

These mirror the messages PrimitiveBlock.read delivers.  String-table
indices are Nat (they are non-negative varints); delta-encoded fields are
Int (zigzag varints).  Absent optional sub-messages are none. -/

/-- A decoded Info message (or the per-element record assembled from
DenseInfo, src/parser.js 353-360).  visible is none when the field is
absent (the generated reader defaults it to true, and fill_info only reacts
to an explicit false, so none and some true behave identically). -/
structure InfoMsg where
  version : Int
  timestamp : Int
  changeset : Int
  uid : Int
  user_sid : Int
  visible : Option Bool
  deriving DecidableEq, Repr

/-- A decoded (non-dense) Node message. -/
structure NodeMsg where
  id : Int
  lat : Int
  lon : Int
  keys : List Nat := []
  vals : List Nat := []
  info : Option InfoMsg := none
  deriving DecidableEq, Repr

/-- A decoded Way message. -/
structure WayMsg where
  id : Int
  refs : List Int := []
  keys : List Nat := []
  vals : List Nat := []
  info : Option InfoMsg := none
  deriving DecidableEq, Repr

/-- A decoded Relation message. -/
structure RelMsg where
  id : Int
  memids : List Int := []
  types : List Nat := []
  roles_sid : List Nat := []
  keys : List Nat := []
  vals : List Nat := []
  info : Option InfoMsg := none
  deriving DecidableEq, Repr

/-- A decoded DenseInfo message.  The four delta fields and version are
parallel to the dense ids (asserted at src/parser.js 346-347); visible is
not asserted and may have any length, an out-of-range read giving
undefined (here none via List.get?). -/
structure DenseInfoMsg where
  version : List Int := []
  timestamp : List Int := []
  changeset : List Int := []
  uid : List Int := []
  user_sid : List Int := []
  visible : List Bool := []
  deriving DecidableEq, Repr

/-- A decoded DenseNodes message. -/
structure DenseMsg where
  id : List Int := []
  lat : List Int := []
  lon : List Int := []
  keys_vals : List Nat := []
  denseinfo : Option DenseInfoMsg := none
  deriving DecidableEq, Repr

/-- A decoded PrimitiveGroup.  changesets is the length of the decoded
changesets array (only its emptiness is consulted, src/parser.js 181). -/
structure PGroup where
  nodes : List NodeMsg := []
  dense : Option DenseMsg := none
  ways : List WayMsg := []
  relations : List RelMsg := []
  changesets : Nat := 0
  deriving DecidableEq, Repr

/-- A decoded PrimitiveBlock with its string table already decoded to
UTF-8 strings (src/parser.js 173).  granularity, offsets and
date_granularity carry the raw decoded numbers. -/
structure PBlock where
  stringtable : List String := []
  primitivegroup : List PGroup := []
  granularity : Int := 0
  lat_offset : Int := 0
  lon_offset : Int := 0
  date_granularity : Int := 0
  deriving DecidableEq, Repr

/-! ## Emitted entities -/

/-- One relation member (src/parser.js 220-224).  type is
memberTypes[types[i]] and role is strings[roles_sid[i]], both undefined
(none) when the index is out of range. -/
structure Member where
  type : Option String
  ref : Int
  role : Option String
  deriving DecidableEq, Repr

/-- An emitted info object: each property is present or absent per
fill_info. -/
structure InfoOut where
  version : Option Int := none
  timestamp : Option Int := none
  changeset : Option Int := none
  uid : Option Int := none
  user : Option String := none
  visible : Option Bool := none
  deriving DecidableEq, Repr

/-- isEmpty of src/parser.js 30-34 applied to an info object. -/
def InfoOut.isEmpty (io : InfoOut) : Bool :=
  io.version.isNone && io.timestamp.isNone && io.changeset.isNone &&
    io.uid.isNone && io.user.isNone && io.visible.isNone

/-- An emitted entity object.  The absent properties of the JavaScript
object are none.  Tag maps are insertion-ordered key-value lists without
duplicate keys (JavaScript object semantics, see objInsert). -/
structure Entity where
  type : String
  id : Int := 0
  lat : Option ℚ := none
  lon : Option ℚ := none
  refs : Option (List Int) := none
  members : Option (List Member) := none
  tags : Option (List (String × String)) := none
  info : Option InfoOut := none
  deriving DecidableEq, Repr

/-- The entity with its tags property removed; every other property is
kept. -/
def eraseTags (e : Entity) : Entity := { e with tags := none }

/-! ## Entity reconstructor (parse and helpers, src/parser.js 159-387) -/

/-- memberTypes (src/parser.js 10). -/
def memberTypes : List String := ["node", "way", "relation"]

/-- Assignment tags[key] = val on a JavaScript object: an existing key is
overwritten in place, a new key is appended. -/
def objInsert (m : List (String × String)) (k v : String) :
    List (String × String) :=
  if m.any fun p => p.1 == k then
    m.map fun p => if p.1 == k then (k, v) else p
  else m ++ [(k, v)]

/-- The data context assembled at the top of parse
(src/parser.js 166-178): decoded strings, normalized options, defaulted
date_granularity, the granularity divisor and the pre-scaled offsets. -/
structure Data where
  strings : List String
  withTags : NormTags
  withInfo : Bool
  date_granularity : Int
  granularity : ℚ
  lat_offset : ℚ
  lon_offset : ℚ
  deriving DecidableEq, Repr

/-- The context preparation of parse (src/parser.js 173-178):
date_granularity defaults to 1000; granularity becomes 1e7 when the raw
value is falsy (0) or 100 and 1e9/raw otherwise; the offsets are
multiplied by 1e-9. -/
def mkData (b : PBlock) (tags : NormTags) (withInfo : Bool) : Data where
  strings := b.stringtable
  withTags := tags
  withInfo := withInfo
  date_granularity := if b.date_granularity = 0 then 1000 else b.date_granularity
  granularity :=
    if b.granularity = 0 ∨ b.granularity = 100 then 10000000
    else 1000000000 / (b.granularity : ℚ)
  lat_offset := (b.lat_offset : ℚ) * (1 / 1000000000)
  lon_offset := (b.lon_offset : ℚ) * (1 / 1000000000)

/-- String-table lookup at a possibly negative index (the accumulated
user_sid); out of range gives undefined (none). -/
def strAt (strings : List String) (i : Int) : Option String :=
  if 0 ≤ i then strings.get? i.toNat else none

/-- fill_info (src/parser.js 369-387): zero-valued numeric fields are
dropped, timestamp is scaled by date_granularity, user is resolved through
the string table and dropped when the result is falsy (absent or empty),
visible is kept only when strictly false. -/
def fill_info (data : Data) (info : InfoMsg) : InfoOut where
  version := if info.version ≠ 0 then some info.version else none
  timestamp :=
    if info.timestamp ≠ 0 then some (info.timestamp * data.date_granularity)
    else none
  changeset := if info.changeset ≠ 0 then some info.changeset else none
  uid := if info.uid ≠ 0 then some info.uid else none
  user :=
    if info.user_sid ≠ 0 then
      match strAt data.strings info.user_sid with
      | some s => if s ≠ "" then some s else none
      | none => none
    else none
  visible := if info.visible = some false then some false else none

/-- The tag loop shared by parse_node, parse_way and parse_rel
(src/parser.js 234-239 and peers): walk the parallel keys/vals index
arrays, resolve both through the string table and keep the pair when the
filter admits the key.  An out-of-range string index is undefined in
JavaScript; as an object key it is coerced to the string "undefined",
which the placeholder mirrors. -/
def buildTags (sel : TagSel) (strings : List String) :
    List Nat → List Nat → List (String × String) → List (String × String)
  | k :: ks, v :: vs, acc =>
      let key := (strings.get? k).getD "undefined"
      let val := (strings.get? v).getD "undefined"
      buildTags sel strings ks vs
        (if tagKeep sel key then objInsert acc key val else acc)
  | _, _, acc => acc

/-- if (!isEmpty(tags)) entity.tags = tags (src/parser.js 240-241 and
peers). -/
def addTags (e : Entity) (tags : List (String × String)) : Entity :=
  if tags.isEmpty then e else { e with tags := some tags }

/-- if (!isEmpty(info)) entity.info = info (src/parser.js 245-246,
277-278, 305-306, 361-362). -/
def attachInfo (e : Entity) (io : InfoOut) : Entity :=
  if io.isEmpty then e else { e with info := some io }

/-- if (withInfo && msg.info) { info = fill_info(...); if nonempty attach }
(src/parser.js 243-247 and peers). -/
def addInfo (data : Data) (oi : Option InfoMsg) (e : Entity) : Entity :=
  if data.withInfo then
    match oi with
    | some im => attachInfo e (fill_info data im)
    | none => e
  else e

/-- The delta-decoding loop ref += refs[i] (src/parser.js 254-257 and the
accumulators of parse_dense and parse_rel). -/
def deltaScan (acc : Int) : List Int → List Int
  | [] => []
  | d :: ds => (acc + d) :: deltaScan (acc + d) ds

/-- The member loop of parse_rel (src/parser.js 218-225): delta-decode the
ids, map the type codes through memberTypes and resolve roles through the
string table. -/
def relMembers (strings : List String) (acc : Int) :
    List Int → List Nat → List Nat → List Member
  | m :: ms, t :: ts, r :: rs =>
      ⟨memberTypes.get? t, acc + m, strings.get? r⟩ ::
        relMembers strings (acc + m) ms ts rs
  | _, _, _ => []

/-- The entity skeleton of parse_node (src/parser.js 285-290). -/
def nodeRec (data : Data) (n : NodeMsg) : Entity where
  type := "node"
  id := n.id
  lat := some (data.lat_offset + (n.lat : ℚ) / data.granularity)
  lon := some (data.lon_offset + (n.lon : ℚ) / data.granularity)

/-- The entity skeleton of parse_way (src/parser.js 258-262). -/
def wayRec (data : Data) (w : WayMsg) : Entity where
  type := "way"
  id := w.id
  refs := some (deltaScan 0 w.refs)

/-- The entity skeleton of parse_rel (src/parser.js 226-230). -/
def relRec (data : Data) (r : RelMsg) : Entity where
  type := "relation"
  id := r.id
  members := some (relMembers data.strings 0 r.memids r.types r.roles_sid)

/-- parse_node (src/parser.js 283-309). -/
def parse_node (data : Data) (n : NodeMsg) : Except String Entity :=
  if data.withTags.node.isOn then
    if n.keys.length = n.vals.length then
      .ok (addInfo data n.info (addTags (nodeRec data n)
        (buildTags data.withTags.node data.strings n.keys n.vals [])))
    else .error "input format error"
  else .ok (addInfo data n.info (nodeRec data n))

/-- parse_way (src/parser.js 251-281). -/
def parse_way (data : Data) (w : WayMsg) : Except String Entity :=
  if data.withTags.way.isOn then
    if w.keys.length = w.vals.length then
      .ok (addInfo data w.info (addTags (wayRec data w)
        (buildTags data.withTags.way data.strings w.keys w.vals [])))
    else .error "input format error"
  else .ok (addInfo data w.info (wayRec data w))

/-- parse_rel (src/parser.js 214-249).  assertArrays(memids, types,
roles_sid) runs unconditionally before anything else. -/
def parse_rel (data : Data) (r : RelMsg) : Except String Entity :=
  if r.memids.length = r.types.length ∧ r.memids.length = r.roles_sid.length then
    if data.withTags.relation.isOn then
      if r.keys.length = r.vals.length then
        .ok (addInfo data r.info (addTags (relRec data r)
          (buildTags data.withTags.relation data.strings r.keys r.vals [])))
      else .error "input format error"
    else .ok (addInfo data r.info (relRec data r))
  else .error "input format error"

/-- The inner tag loop of parse_dense (src/parser.js 334-341): consume
(key, val) index pairs until the 0 sentinel and return the remaining
suffix of keys_vals.  When keys_vals runs out without a sentinel the
JavaScript loop reads undefined indices forever; the model stops at the
end of the list instead (no claim concerns that divergent input, and the
well-formedness predicate below excludes it). -/
def readDenseTags (sel : TagSel) (strings : List String) :
    List Nat → List (String × String) → List (String × String) × List Nat
  | [], acc => (acc, [])
  | 0 :: rest, acc => (acc, rest)
  | k :: v :: rest, acc =>
      let key := (strings.get? k).getD "undefined"
      let val := (strings.get? v).getD "undefined"
      readDenseTags sel strings rest
        (if tagKeep sel key then objInsert acc key val else acc)
  | k :: [], acc =>
      let key := (strings.get? k).getD "undefined"
      ((if tagKeep sel key then objInsert acc key "undefined" else acc), [])

/-- One dense node without its info: the accumulator snapshot entity of
src/parser.js 325-330 and the tag block of src/parser.js 331-344, which
runs only when node tags are enabled and the whole keys_vals array is
non-empty.  Returns the entity and the keys_vals cursor position for the
next node. -/
def denseNodeBase (data : Data) (d : DenseMsg) (kv : List Nat)
    (aid alat alon : Int) : Entity × List Nat :=
  let node : Entity :=
    { type := "node", id := aid,
      lat := some (data.lat_offset + (alat : ℚ) / data.granularity),
      lon := some (data.lon_offset + (alon : ℚ) / data.granularity) }
  if data.withTags.node.isOn ∧ d.keys_vals ≠ [] then
    let tr := readDenseTags data.withTags.node data.strings kv []
    (addTags node tr.1, tr.2)
  else (node, kv)

/-- The loop body of parse_dense (src/parser.js 321-365), one recursive
pass per dense element.  i is the absolute element index (for the DenseInfo
arrays and visible), ids/lats/lons are the unprocessed tails of d.id,
d.lat, d.lon, kv is the unprocessed suffix of keys_vals (the cursor j) and
the seven accumulators carry the running delta sums.  The DenseInfo
parallel-array assertion (src/parser.js 346-347) is evaluated inside the
loop, exactly as in the source, so an empty dense group never fires it. -/
def denseGo (data : Data) (d : DenseMsg) (i : Nat) :
    List Int → List Int → List Int → List Nat →
    Int → Int → Int → Int → Int → Int → Int → Except String (List Entity)
  | di :: ids, dlat :: lats, dlon :: lons, kv,
      aid, alat, alon, ats, acs, auid, ausid =>
      let tkv := denseNodeBase data d kv (aid + di) (alat + dlat) (alon + dlon)
      match data.withInfo, d.denseinfo with
      | true, some dinfo =>
          if d.id.length = dinfo.timestamp.length ∧
              d.id.length = dinfo.changeset.length ∧
              d.id.length = dinfo.uid.length ∧
              d.id.length = dinfo.user_sid.length ∧
              d.id.length = dinfo.version.length then
            let ats := ats + dinfo.timestamp.getD i 0
            let acs := acs + dinfo.changeset.getD i 0
            let auid := auid + dinfo.uid.getD i 0
            let ausid := ausid + dinfo.user_sid.getD i 0
            let io := fill_info data
              ⟨dinfo.version.getD i 0, ats, acs, auid, ausid, dinfo.visible.get? i⟩
            match denseGo data d (i + 1) ids lats lons tkv.2
                (aid + di) (alat + dlat) (alon + dlon) ats acs auid ausid with
            | .ok rest => .ok (attachInfo tkv.1 io :: rest)
            | .error err => .error err
          else .error "input format error"
      | _, _ =>
          match denseGo data d (i + 1) ids lats lons tkv.2
              (aid + di) (alat + dlat) (alon + dlon) ats acs auid ausid with
          | .ok rest => .ok (tkv.1 :: rest)
          | .error err => .error err
  | _, _, _, _, _, _, _, _, _, _, _ => .ok []

/-- parse_dense (src/parser.js 311-367): assertArrays(id, lat, lon), then
the element loop with all accumulators starting at 0. -/
def parse_dense (data : Data) (d : DenseMsg) : Except String (List Entity) :=
  if d.id.length = d.lat.length ∧ d.id.length = d.lon.length then
    denseGo data d 0 d.id d.lat d.lon d.keys_vals 0 0 0 0 0 0 0
  else .error "input format error"

/-- Mapping a fallible entity parser over a message list (the for-of
loops of parse, src/parser.js 183-209). -/
def parseList {β : Type} (f : β → Except String Entity) :
    List β → Except String (List Entity)
  | [] => .ok []
  | x :: xs =>
      match f x with
      | .ok e =>
          match parseList f xs with
          | .ok es => .ok (e :: es)
          | .error err => .error err
      | .error err => .error err

/-- One PrimitiveGroup of parse (src/parser.js 180-210): reject non-empty
changesets, then nodes, dense nodes, ways and relations in source order.
The batch-adoption and spread-versus-push distinction of
src/parser.js 188-200 are all plain list concatenation. -/
def parseGroup (data : Data) (g : PGroup) : Except String (List Entity) :=
  if g.changesets ≠ 0 then .error "changesets not implemented"
  else
    match parseList (parse_node data) g.nodes with
    | .error e => .error e
    | .ok ns =>
        match (match g.dense with
               | some d => parse_dense data d
               | none => .ok []) with
        | .error e => .error e
        | .ok ds =>
            match parseList (parse_way data) g.ways with
            | .error e => .error e
            | .ok ws =>
                match parseList (parse_rel data) g.relations with
                | .error e => .error e
                | .ok rs => .ok (ns ++ ds ++ ws ++ rs)

/-- The group loop of parse, concatenating the per-group batches. -/
def parseGroups (data : Data) : List PGroup → Except String (List Entity)
  | [] => .ok []
  | g :: gs =>
      match parseGroup data g with
      | .ok es =>
          match parseGroups data gs with
          | .ok rest => .ok (es ++ rest)
          | .error e => .error e
      | .error e => .error e

/-- parse (src/parser.js 164-212) on an already decoded PrimitiveBlock,
with the withTags option already normalized. -/
def parse (b : PBlock) (tags : NormTags) (withInfo : Bool) :
    Except String (List Entity) :=
  parseGroups (mkData b tags withInfo) b.primitivegroup

/-! ## Prefix sums and well-formedness -/

/-- Sum of the first i elements of a delta array. -/
def presum (l : List Int) (i : Nat) : Int :=
  (l.take i).foldl (· + ·) 0

/-- Sum of the first i+1 elements of a delta array: the value of the
running accumulator when the element of index i is emitted. -/
def psum (l : List Int) (i : Nat) : Int :=
  presum l (i + 1)

/-- Reading one tag group of keys_vals as the JavaScript loop does: pairs
up to a 0 sentinel.  none when the array is exhausted first (on which the
JavaScript loop would not terminate). -/
def kvGroup : List Nat → Option (List Nat)
  | [] => none
  | 0 :: rest => some rest
  | _ :: _ :: rest => kvGroup rest
  | _ :: [] => none

/-- keys_vals holds sentinel-terminated groups for n consecutive nodes. -/
def kvOk : Nat → List Nat → Bool
  | 0, _ => true
  | n + 1, kv =>
      match kvGroup kv with
      | some rest => kvOk n rest
      | none => false

/-- Well-formedness of a dense group: the asserted parallel arrays agree
in length and keys_vals is either empty or holds one sentinel-terminated
group per node (the dense encoding invariant of the format). -/
def denseWF (d : DenseMsg) : Bool :=
  (d.id.length == d.lat.length) && (d.id.length == d.lon.length) &&
  (match d.denseinfo with
   | some di =>
       (d.id.length == di.timestamp.length) &&
       (d.id.length == di.changeset.length) &&
       (d.id.length == di.uid.length) &&
       (d.id.length == di.user_sid.length) &&
       (d.id.length == di.version.length)
   | none => true) &&
  (d.keys_vals.isEmpty || kvOk d.id.length d.keys_vals)

/-- Well-formedness of a PrimitiveGroup: no changesets and all
declared-parallel arrays of equal length. -/
def groupWF (g : PGroup) : Bool :=
  (g.changesets == 0) &&
  g.nodes.all (fun n => n.keys.length == n.vals.length) &&
  (match g.dense with
   | some d => denseWF d
   | none => true) &&
  g.ways.all (fun w => w.keys.length == w.vals.length) &&
  g.relations.all (fun r =>
    (r.memids.length == r.types.length) &&
    (r.memids.length == r.roles_sid.length) &&
    (r.keys.length == r.vals.length))

/-- Well-formedness of a PrimitiveBlock. -/
def blockWF (b : PBlock) : Bool :=
  b.primitivegroup.all groupWF

/-- The info object expected for the dense element of index j: fill_info
applied to the per-element version and visible and to the prefix sums of
the four delta-encoded DenseInfo arrays, attached only when non-empty. -/
def denseInfoAt (data : Data) (dinfo : DenseInfoMsg) (j : Nat) : Option InfoOut :=
  let io := fill_info data
    ⟨dinfo.version.getD j 0, psum dinfo.timestamp j, psum dinfo.changeset j,
      psum dinfo.uid j, psum dinfo.user_sid j, dinfo.visible.get? j⟩
  if io.isEmpty then none else some io

/-- The granularity scale in the specification's words: 1e7 when the raw
granularity is unset (0) or equals 100, else 1e9 divided by the raw
granularity.  Stated from the spec text, to be compared with the divisor
mkData computes from the source. -/
def specGranularityScale (rawGranularity : Int) : ℚ :=
  if rawGranularity = 0 ∨ rawGranularity = 100 then 10000000
  else 1000000000 / (rawGranularity : ℚ)

/-- A minimal Data context for witnesses: everything off, no strings,
granularity divisor 1e7 (raw 0), zero offsets. -/
def baseData : Data where
  strings := []
  withTags := ⟨.no, .no, .no⟩
  withInfo := false
  date_granularity := 1000
  granularity := 10000000
  lat_offset := 0
  lon_offset := 0

/-- The dense group of the specification's dense-correctness test:
id deltas [10, 5, -3]. -/
def denseW : DenseMsg where
  id := [10, 5, -3]
  lat := [1, 2, 3]
  lon := [0, 0, 0]

/-- The batch parse_dense emits for denseW under baseData: ids 10, 15, 12
(prefix sums of [10, 5, -3]). -/
def denseWOut : List Entity :=
  [{ type := "node", id := 10, lat := some (1 / 10000000), lon := some 0 },
   { type := "node", id := 15, lat := some (3 / 10000000), lon := some 0 },
   { type := "node", id := 12, lat := some (6 / 10000000), lon := some 0 }]

/-- The block of the coordinate-formula test: granularity 100, offsets
zero. -/
def coordBlock : PBlock where
  granularity := 100

/-- A node with raw latitude 330000000 (33 degrees at granularity 100). -/
def coordNode : NodeMsg where
  id := 1
  lat := 330000000
  lon := 0

/-- The entity parse_node emits for coordNode in coordBlock. -/
def coordEntity : Entity where
  type := "node"
  id := 1
  lat := some 33
  lon := some 0

/-- The Data context of the relation example: strings "", "from", "to". -/
def relData : Data where
  strings := ["", "from", "to"]
  withTags := ⟨.no, .no, .no⟩
  withInfo := false
  date_granularity := 1000
  granularity := 10000000
  lat_offset := 0
  lon_offset := 0

/-- The relation of the specification's example: memids [5, 10, -2],
types [0, 1, 2], roles_sid [1, 2, 1]. -/
def relW : RelMsg where
  id := 7
  memids := [5, 10, -2]
  types := [0, 1, 2]
  roles_sid := [1, 2, 1]

/-- The entity parse_rel emits for relW: members (node, 5, "from"),
(way, 15, "to"), (relation, 13, "from"). -/
def relWOut : Entity where
  type := "relation"
  id := 7
  members := some [⟨some "node", 5, some "from"⟩, ⟨some "way", 15, some "to"⟩,
    ⟨some "relation", 13, some "from"⟩]

/-- A block whose only way has keys [1] but no vals (mismatched parallel
arrays). -/
def mismatchBlock : PBlock where
  primitivegroup := [{ ways := [{ id := 1, keys := [1], vals := [] }] }]

/-- A relation with memids and types of different lengths. -/
def relMismatch : RelMsg where
  id := 1
  memids := [5]
  types := []
  roles_sid := [0]

/-- A way with keys and vals of different lengths. -/
def wayMismatch : WayMsg where
  id := 1
  keys := [1]
  vals := []

/-- A well-formed one-group block holding the witness dense group. -/
def c10Block : PBlock where
  primitivegroup := [{ dense := some denseW }]

/-- A concrete decoder instance for the frame-machine witnesses. -/
def headerFrameDecoders : Decoders Nat where
  readBlobHeader _ := ("OSMHeader", 0)
  decodeHeader _ := some 7
  decodeData _ := some 8

/-- A decoder whose streams open with an OSMData frame. -/
def dataFirstDecoders : Decoders Nat where
  readBlobHeader _ := ("OSMData", 0)
  decodeHeader _ := some 7
  decodeData _ := some 8

/-! # Theorems -/

/-! ## Frame machine lemmas -/

section FrameLemmas
variable {α : Type} (D : Decoders α)

/-- Unfolding: too few buffered bytes suspends the loop. -/
theorem consume_insufficient (st : FrameStatus) (buf : List Nat)
    (h : buf.length < st.needed) : consume D st buf = .ok ([], st, buf) := by
  rw [consume.eq_def]
  simp only [if_pos h]

/-- Unfolding: with enough bytes and a successful step, the loop recurses
on the remaining bytes. -/
theorem consume_step_ok (st : FrameStatus) (buf : List Nat)
    (o : List α) (st2 : FrameStatus)
    (hge : ¬ buf.length < st.needed)
    (hstep : step D st (buf.take st.needed) = .ok (o, st2)) :
    consume D st buf =
      match consume D st2 (buf.drop st.needed) with
      | .ok (o2, st3, rest) => .ok (o ++ o2, st3, rest)
      | .error e => .error e := by
  rw [consume.eq_def, if_neg hge]
  split
  · rename_i o2 st3 heq
    rw [hstep] at heq
    simp only [Except.ok.injEq, Prod.mk.injEq] at heq
    obtain ⟨rfl, rfl⟩ := heq
    rfl
  · rename_i e heq
    rw [hstep] at heq
    simp at heq

/-- Unfolding: with enough bytes and a failing step, the loop throws. -/
theorem consume_step_error (st : FrameStatus) (buf : List Nat) (e : String)
    (hge : ¬ buf.length < st.needed)
    (hstep : step D st (buf.take st.needed) = .error e) :
    consume D st buf = .error e := by
  rw [consume.eq_def, if_neg hge]
  split
  · rename_i o2 st3 heq
    rw [hstep] at heq
    simp at heq
  · rename_i e2 heq
    rw [hstep] at heq
    simp only [Except.error.injEq] at heq
    rw [heq]

/-- The unconsumed tail a successful consume returns is always too short
for the final status: the loop only suspends at the insufficient-bytes
guard. -/
theorem consume_rest_lt (st : FrameStatus) (buf : List Nat)
    (out : List α) (st2 : FrameStatus) (rest : List Nat)
    (h : consume D st buf = .ok (out, st2, rest)) : rest.length < st2.needed := by
  induction st, buf using consume.induct D generalizing out st2 rest with
  | case1 st buf hlt =>
      rw [consume_insufficient D st buf hlt] at h
      simp only [Except.ok.injEq, Prod.mk.injEq] at h
      obtain ⟨-, rfl, rfl⟩ := h
      exact hlt
  | case2 st buf hge o st2x hstep o2 st3 rst hrec ih =>
      rw [consume_step_ok D st buf o st2x hge hstep, hrec] at h
      simp only [Except.ok.injEq, Prod.mk.injEq] at h
      obtain ⟨-, rfl, rfl⟩ := h
      exact ih o2 st3 rst hrec
  | case3 st buf hge o st2x hstep e herr ih =>
      rw [consume_step_ok D st buf o st2x hge hstep, herr] at h
      cases h
  | case4 st buf hge e hstep =>
      rw [consume_step_error D st buf e hge hstep] at h
      cases h

/-- Resumability: consuming from buf ++ extra is consuming from buf and
then resuming, with the suspended tail, on the appended bytes.  Each loop
step decodes only the slice it consumes, so the split point is
invisible. -/
theorem consume_append (st : FrameStatus) (buf extra : List Nat) :
    consume D st (buf ++ extra) =
      match consume D st buf with
      | .ok (o1, st1, rest1) =>
          (match consume D st1 (rest1 ++ extra) with
           | .ok (o2, st2, rest2) => .ok (o1 ++ o2, st2, rest2)
           | .error e => .error e)
      | .error e => .error e := by
  induction st, buf using consume.induct D with
  | case1 st buf hlt =>
      rw [consume_insufficient D st buf hlt]
      cases h3 : consume D st (buf ++ extra) with
      | ok r =>
          obtain ⟨o2, st2, r2⟩ := r
          simp only [h3, List.nil_append]
      | error e => simp only [h3]
  | case2 st buf hge o st2 hstep o2 st3 rest hrec ih =>
      have hle : st.needed ≤ buf.length := not_lt.mp hge
      have hge2 : ¬ (buf ++ extra).length < st.needed := by
        simp only [List.length_append, not_lt]
        omega
      have htake : (buf ++ extra).take st.needed = buf.take st.needed :=
        List.take_append_of_le_length hle
      have hdrop : (buf ++ extra).drop st.needed = buf.drop st.needed ++ extra :=
        List.drop_append_of_le_length hle
      rw [consume_step_ok D st (buf ++ extra) o st2 hge2 (htake ▸ hstep), hdrop, ih,
        hrec, consume_step_ok D st buf o st2 hge hstep, hrec]
      cases h3 : consume D st3 (rest ++ extra) with
      | ok r =>
          obtain ⟨o3, st4, r4⟩ := r
          simp only [h3, List.append_assoc]
      | error e2 => simp only [h3]
  | case3 st buf hge o st2 hstep e herr ih =>
      have hle : st.needed ≤ buf.length := not_lt.mp hge
      have hge2 : ¬ (buf ++ extra).length < st.needed := by
        simp only [List.length_append, not_lt]
        omega
      have htake : (buf ++ extra).take st.needed = buf.take st.needed :=
        List.take_append_of_le_length hle
      have hdrop : (buf ++ extra).drop st.needed = buf.drop st.needed ++ extra :=
        List.drop_append_of_le_length hle
      rw [consume_step_ok D st (buf ++ extra) o st2 hge2 (htake ▸ hstep), hdrop, ih,
        herr, consume_step_ok D st buf o st2 hge hstep, herr]
  | case4 st buf hge e hstep =>
      have hle : st.needed ≤ buf.length := not_lt.mp hge
      have hge2 : ¬ (buf ++ extra).length < st.needed := by
        simp only [List.length_append, not_lt]
        omega
      have htake : (buf ++ extra).take st.needed = buf.take st.needed :=
        List.take_append_of_le_length hle
      rw [consume_step_error D st (buf ++ extra) e hge2 (htake ▸ hstep),
        consume_step_error D st buf e hge hstep]

/-- Feeding chunks one at a time from a suspended state is the same as one
consume run over the concatenation. -/
theorem runChunks_eq_consume (st : FrameStatus) (left : List Nat)
    (cs : List (List Nat)) (hq : left.length < st.needed) :
    runChunks D ⟨st, left⟩ cs =
      match consume D st (left ++ cs.flatten) with
      | .ok (o, st2, rest) => .ok (o, (⟨st2, rest⟩ : TransformState))
      | .error e => .error e := by
  induction cs generalizing st left with
  | nil =>
      simp only [runChunks, List.flatten_nil, List.append_nil]
      rw [consume_insufficient D st left hq]
  | cons c cs ih =>
      have hjoin : left ++ (c :: cs).flatten = (left ++ c) ++ cs.flatten := by
        simp [List.append_assoc]
      rw [hjoin, consume_append D st (left ++ c) cs.flatten]
      cases hc : consume D st (left ++ c) with
      | error e => simp only [runChunks, transformChunk, hc]
      | ok r =>
          obtain ⟨o1, st1, r1⟩ := r
          have hq1 : r1.length < st1.needed :=
            consume_rest_lt D st (left ++ c) o1 st1 r1 hc
          simp only [runChunks, transformChunk, hc]
          rw [ih st1 r1 hq1]
          cases h2 : consume D st1 (r1 ++ cs.flatten) with
          | error e => rfl
          | ok r2 =>
              obtain ⟨o2, st2, rest2⟩ := r2
              rfl

/-- A non-empty run (transform calls plus flush) is one consume pass over
the concatenated bytes followed by the flush assertion. -/
theorem runAll_eq_consume (chunks : List (List Nat)) (hne : chunks ≠ []) :
    runAll D chunks =
      match consume D .s0 chunks.flatten with
      | .ok (o, st2, rest) =>
          if rest.isEmpty && st2.isS0 then .ok o
          else .error "input format error"
      | .error e => .error e := by
  obtain ⟨c, cs, rfl⟩ : ∃ c cs, chunks = c :: cs := by
    cases chunks with
    | nil => exact absurd rfl hne
    | cons c cs => exact ⟨c, cs, rfl⟩
  simp only [runAll]
  rw [runChunks_eq_consume D .s0 [] (c :: cs) (by simp [FrameStatus.needed])]
  simp only [List.nil_append]
  cases h : consume D .s0 (c :: cs).flatten with
  | error e => rfl
  | ok r =>
      obtain ⟨o, st2, rest⟩ := r
      rfl

end FrameLemmas

/-! ## C1: chunk independence -/

/-- C1: Chunk-independence of the frame reassembler.  For any two
partitions of the same byte sequence into (non-empty lists of) chunks,
feeding the chunks in order through _transform followed by _flush yields
identical results: the same pushed batches in the same order (and the same
error, if any).  This holds for every choice of the blob decode functions,
in particular for the actual decoders of the source. -/
theorem c1_chunk_independence {α : Type} (D : Decoders α)
    (cs1 cs2 : List (List Nat)) (hjoin : cs1.flatten = cs2.flatten)
    (h1 : cs1 ≠ []) (h2 : cs2 ≠ []) :
    runAll D cs1 = runAll D cs2 := by
  rw [runAll_eq_consume D cs1 h1, runAll_eq_consume D cs2 h2, hjoin]

/-- Witness for C1: the one-chunk and two-chunk partitions of a concrete
4-byte frame stream satisfy the hypotheses and yield equal runs. -/
theorem c1_chunk_independence_witness :
    ([[0, 0, 0, 0]] : List (List Nat)).flatten =
        ([[0, 0], [0, 0]] : List (List Nat)).flatten ∧
      runAll headerFrameDecoders [[0, 0, 0, 0]] =
        runAll headerFrameDecoders [[0, 0], [0, 0]] :=
  ⟨rfl, c1_chunk_independence headerFrameDecoders [[0, 0, 0, 0]] [[0, 0], [0, 0]]
    rfl (by simp) (by simp)⟩

/-! ## C9: input-sequence enforcement -/

/-- C9 (amended): the only sequencing check of the source is on the
BlobHeader type (src/parser.js 86-87).  A type outside
{OSMHeader, OSMData} throws the input sequence error; but a first frame of
type OSMData is not rejected: the machine moves to the data status and
proceeds, so a stream whose first frame is OSMData is processed without
any sequencing error. -/
theorem c9_input_sequence {α : Type} (D : Decoders α) (n ds : Nat)
    (buf : List Nat) (t : String)
    (hge : ¬ buf.length < n)
    (hhd : D.readBlobHeader (buf.take n) = (t, ds)) :
    (t ≠ "OSMHeader" → t ≠ "OSMData" →
        consume D (.s1 n) buf = .error "input sequence error") ∧
      (t = "OSMData" →
        consume D (.s1 n) buf = consume D (.s3 ds) (buf.drop n)) := by
  have hneed : (FrameStatus.s1 n).needed = n := rfl
  constructor
  · intro hnh hnd
    apply consume_step_error D (.s1 n) buf _ (hneed ▸ hge)
    simp only [step, hneed, hhd, if_neg hnh, if_neg hnd]
  · intro ht
    subst ht
    have hstep : step D (.s1 n) (buf.take (FrameStatus.s1 n).needed) =
        .ok ([], .s3 ds) := by
      simp only [step, hneed, hhd]
      rw [if_neg (by decide)]
      simp
    rw [consume_step_ok D (.s1 n) buf [] (.s3 ds) (hneed ▸ hge) hstep]
    have hdr : List.drop (FrameStatus.s1 n).needed buf = List.drop n buf := rfl
    rw [hdr]
    cases h : consume D (.s3 ds) (List.drop n buf) with
    | ok r =>
        obtain ⟨o, st, rest⟩ := r
        simp only [List.nil_append]
    | error e => rfl

/-- Counterexample to C9 as stated: a stream whose first frame is an
OSMData blob is accepted and its batch pushed, with no input-sequence
error; the claimed fatal error does not occur. -/
theorem c9_counterexample :
    runAll dataFirstDecoders [[0, 0, 0, 0]] = .ok [8] := by
  simp [runAll, runChunks, transformChunk, consume, step, readUInt32BE,
    dataFirstDecoders, FrameStatus.needed, FrameStatus.isS0]

/-- Witness for C9: the amended theorem applied to the concrete data-first
decoder and a 4-byte buffer. -/
theorem c9_input_sequence_witness :
    (¬ ([0, 0, 0, 0] : List Nat).length < 4) ∧
      (consume dataFirstDecoders (.s1 4) [0, 0, 0, 0] =
        consume dataFirstDecoders (.s3 0) (([0, 0, 0, 0] : List Nat).drop 4)) :=
  ⟨by simp,
    (c9_input_sequence dataFirstDecoders 4 0 [0, 0, 0, 0] "OSMData"
      (by simp) rfl).2 rfl⟩

/-! ## Prefix-sum and list helpers -/

theorem foldl_add_shift (t : List Int) (a b : Int) :
    t.foldl (· + ·) (a + b) = a + t.foldl (· + ·) b := by
  induction t generalizing b with
  | nil => rfl
  | cons x xs ih =>
      simp only [List.foldl_cons]
      rw [add_assoc, ih]

theorem presum_zero (l : List Int) : presum l 0 = 0 := rfl

theorem presum_cons (d : Int) (ds : List Int) (k : Nat) :
    presum (d :: ds) (k + 1) = d + presum ds k := by
  simp only [presum, List.take_succ_cons, List.foldl_cons, zero_add]
  have := foldl_add_shift (ds.take k) d 0
  rw [add_zero] at this
  exact this

theorem psum_cons_zero (d : Int) (ds : List Int) : psum (d :: ds) 0 = d := by
  simp [psum, presum_cons, presum_zero]

theorem psum_cons_succ (d : Int) (ds : List Int) (i : Nat) :
    psum (d :: ds) (i + 1) = d + psum ds i := by
  simp [psum, presum_cons]

theorem presum_succ_get (l : List Int) (i : Nat) (a : Int)
    (h : l.get? i = some a) : presum l (i + 1) = presum l i + a := by
  simp only [presum]
  rw [List.get?_eq_getElem?] at h
  rw [List.take_succ, h]
  simp [List.foldl_append]

theorem drop_cons_succ {β : Type} (l : List β) (i : Nat) (a : β) (t : List β)
    (h : l.drop i = a :: t) : l.drop (i + 1) = t := by
  have := congrArg (List.drop 1) h
  rw [List.drop_drop] at this
  simpa [Nat.add_comm] using this

theorem drop_cons_get {β : Type} (l : List β) (i : Nat) (a : β) (t : List β)
    (h : l.drop i = a :: t) : l.get? i = some a := by
  induction l generalizing i with
  | nil => simp at h
  | cons x xs ih =>
      cases i with
      | zero => simp at h; simp [h.1]
      | succ i => simp only [List.drop_succ_cons] at h; simpa using ih i h

/-! ## Entity-field preservation under tag and info attachment -/

@[simp] theorem addTags_type (e : Entity) (t : List (String × String)) :
    (addTags e t).type = e.type := by
  unfold addTags; split <;> rfl

@[simp] theorem addTags_id (e : Entity) (t : List (String × String)) :
    (addTags e t).id = e.id := by
  unfold addTags; split <;> rfl

@[simp] theorem addTags_lat (e : Entity) (t : List (String × String)) :
    (addTags e t).lat = e.lat := by
  unfold addTags; split <;> rfl

@[simp] theorem addTags_lon (e : Entity) (t : List (String × String)) :
    (addTags e t).lon = e.lon := by
  unfold addTags; split <;> rfl

@[simp] theorem addTags_refs (e : Entity) (t : List (String × String)) :
    (addTags e t).refs = e.refs := by
  unfold addTags; split <;> rfl

@[simp] theorem addTags_members (e : Entity) (t : List (String × String)) :
    (addTags e t).members = e.members := by
  unfold addTags; split <;> rfl

@[simp] theorem addTags_info (e : Entity) (t : List (String × String)) :
    (addTags e t).info = e.info := by
  unfold addTags; split <;> rfl

@[simp] theorem attachInfo_type (e : Entity) (io : InfoOut) :
    (attachInfo e io).type = e.type := by
  unfold attachInfo; split <;> rfl

@[simp] theorem attachInfo_id (e : Entity) (io : InfoOut) :
    (attachInfo e io).id = e.id := by
  unfold attachInfo; split <;> rfl

@[simp] theorem attachInfo_lat (e : Entity) (io : InfoOut) :
    (attachInfo e io).lat = e.lat := by
  unfold attachInfo; split <;> rfl

@[simp] theorem attachInfo_lon (e : Entity) (io : InfoOut) :
    (attachInfo e io).lon = e.lon := by
  unfold attachInfo; split <;> rfl

@[simp] theorem attachInfo_refs (e : Entity) (io : InfoOut) :
    (attachInfo e io).refs = e.refs := by
  unfold attachInfo; split <;> rfl

@[simp] theorem attachInfo_members (e : Entity) (io : InfoOut) :
    (attachInfo e io).members = e.members := by
  unfold attachInfo; split <;> rfl

@[simp] theorem attachInfo_tags (e : Entity) (io : InfoOut) :
    (attachInfo e io).tags = e.tags := by
  unfold attachInfo; split <;> rfl

theorem attachInfo_info (e : Entity) (io : InfoOut) :
    (attachInfo e io).info = if io.isEmpty then e.info else some io := by
  unfold attachInfo; split <;> simp_all

@[simp] theorem addInfo_type (data : Data) (oi : Option InfoMsg) (e : Entity) :
    (addInfo data oi e).type = e.type := by
  unfold addInfo
  split <;> [skip; rfl]
  cases oi with
  | none => rfl
  | some im => simp

@[simp] theorem addInfo_id (data : Data) (oi : Option InfoMsg) (e : Entity) :
    (addInfo data oi e).id = e.id := by
  unfold addInfo
  split <;> [skip; rfl]
  cases oi with
  | none => rfl
  | some im => simp

@[simp] theorem addInfo_lat (data : Data) (oi : Option InfoMsg) (e : Entity) :
    (addInfo data oi e).lat = e.lat := by
  unfold addInfo
  split <;> [skip; rfl]
  cases oi with
  | none => rfl
  | some im => simp

@[simp] theorem addInfo_lon (data : Data) (oi : Option InfoMsg) (e : Entity) :
    (addInfo data oi e).lon = e.lon := by
  unfold addInfo
  split <;> [skip; rfl]
  cases oi with
  | none => rfl
  | some im => simp

@[simp] theorem addInfo_refs (data : Data) (oi : Option InfoMsg) (e : Entity) :
    (addInfo data oi e).refs = e.refs := by
  unfold addInfo
  split <;> [skip; rfl]
  cases oi with
  | none => rfl
  | some im => simp

@[simp] theorem addInfo_members (data : Data) (oi : Option InfoMsg) (e : Entity) :
    (addInfo data oi e).members = e.members := by
  unfold addInfo
  split <;> [skip; rfl]
  cases oi with
  | none => rfl
  | some im => simp

@[simp] theorem addInfo_tags (data : Data) (oi : Option InfoMsg) (e : Entity) :
    (addInfo data oi e).tags = e.tags := by
  unfold addInfo
  split <;> [skip; rfl]
  cases oi with
  | none => rfl
  | some im => simp

/-! ## Characterization of the scalar entity parsers -/

theorem parse_node_ok (data : Data) (n : NodeMsg) (e : Entity)
    (h : parse_node data n = .ok e) :
    e.type = "node" ∧ e.id = n.id ∧
      e.lat = some (data.lat_offset + (n.lat : ℚ) / data.granularity) ∧
      e.lon = some (data.lon_offset + (n.lon : ℚ) / data.granularity) ∧
      e.refs = none ∧ e.members = none := by
  unfold parse_node at h
  split at h
  · split at h
    · injection h with h
      subst h
      simp [nodeRec]
    · cases h
  · injection h with h
    subst h
    simp [nodeRec]

theorem deltaScan_length (acc : Int) (l : List Int) :
    (deltaScan acc l).length = l.length := by
  induction l generalizing acc with
  | nil => rfl
  | cons d ds ih => simp [deltaScan, ih]

theorem deltaScan_get (acc : Int) (l : List Int) (i : Nat) (hi : i < l.length) :
    (deltaScan acc l).get? i = some (acc + psum l i) := by
  induction l generalizing acc i with
  | nil => simp at hi
  | cons d ds ih =>
      cases i with
      | zero => simp [deltaScan, psum_cons_zero]
      | succ i =>
          have hi2 : i < ds.length := by simpa using hi
          simp only [deltaScan, List.get?_cons_succ, psum_cons_succ]
          rw [ih (acc + d) i hi2, add_assoc]

theorem parse_way_ok (data : Data) (w : WayMsg) (e : Entity)
    (h : parse_way data w = .ok e) :
    e.type = "way" ∧ e.id = w.id ∧ e.refs = some (deltaScan 0 w.refs) ∧
      e.lat = none ∧ e.lon = none ∧ e.members = none := by
  unfold parse_way at h
  split at h
  · split at h
    · injection h with h
      subst h
      simp [wayRec]
    · cases h
  · injection h with h
    subst h
    simp [wayRec]

theorem relMembers_length (strings : List String) (acc : Int) :
    ∀ (ms : List Int) (ts rs : List Nat), ms.length = ts.length →
      ms.length = rs.length →
      (relMembers strings acc ms ts rs).length = ms.length := by
  intro ms
  induction ms generalizing acc with
  | nil => intro ts rs h1 h2; rfl
  | cons m ms ih =>
      intro ts rs h1 h2
      cases ts with
      | nil => simp at h1
      | cons t ts =>
          cases rs with
          | nil => simp at h2
          | cons r rs =>
              simp only [relMembers, List.length_cons]
              rw [ih (acc + m) ts rs (by simpa using h1) (by simpa using h2)]

theorem relMembers_get (strings : List String) (acc : Int) :
    ∀ (ms : List Int) (ts rs : List Nat) (i : Nat), ms.length = ts.length →
      ms.length = rs.length → i < ms.length →
      (relMembers strings acc ms ts rs).get? i =
        some ⟨memberTypes.get? (ts.getD i 0), acc + psum ms i,
          strings.get? (rs.getD i 0)⟩ := by
  intro ms
  induction ms generalizing acc with
  | nil => intro ts rs i h1 h2 hi; simp at hi
  | cons m ms ih =>
      intro ts rs i h1 h2 hi
      cases ts with
      | nil => simp at h1
      | cons t ts =>
          cases rs with
          | nil => simp at h2
          | cons r rs =>
              cases i with
              | zero => simp [relMembers, psum_cons_zero]
              | succ i =>
                  have hi2 : i < ms.length := by simpa using hi
                  simp only [relMembers, List.get?_cons_succ, psum_cons_succ,
                    List.getD_cons_succ]
                  rw [ih (acc + m) ts rs i (by simpa using h1) (by simpa using h2) hi2,
                    add_assoc]

theorem parse_rel_ok (data : Data) (r : RelMsg) (e : Entity)
    (h : parse_rel data r = .ok e) :
    e.type = "relation" ∧ e.id = r.id ∧
      e.members = some (relMembers data.strings 0 r.memids r.types r.roles_sid) ∧
      r.memids.length = r.types.length ∧ r.memids.length = r.roles_sid.length ∧
      e.lat = none ∧ e.lon = none ∧ e.refs = none := by
  unfold parse_rel at h
  split at h
  · rename_i hlen
    split at h
    · split at h
      · injection h with h
        subst h
        exact ⟨by simp [relRec], by simp [relRec], by simp [relRec], hlen.1, hlen.2,
          by simp [relRec], by simp [relRec], by simp [relRec]⟩
      · cases h
    · injection h with h
      subst h
      exact ⟨by simp [relRec], by simp [relRec], by simp [relRec], hlen.1, hlen.2,
        by simp [relRec], by simp [relRec], by simp [relRec]⟩
  · cases h

/-! ## C4: relation member reconstruction -/

/-- C4: for a relation whose memids, types and roles_sid arrays have equal
lengths (which parse_rel asserts), the emitted members array is parallel to
them; member i carries the prefix sum of memids up to i as its ref, the
type code mapped through the node/way/relation table (codes 0, 1, 2), and
the string-table entry at roles_sid[i] as its role. -/
theorem c4_relation_members (data : Data) (r : RelMsg) (e : Entity)
    (h : parse_rel data r = .ok e) :
    e.members = some (relMembers data.strings 0 r.memids r.types r.roles_sid) ∧
      (relMembers data.strings 0 r.memids r.types r.roles_sid).length =
        r.memids.length ∧
      (∀ i, i < r.memids.length →
        (relMembers data.strings 0 r.memids r.types r.roles_sid).get? i =
          some ⟨memberTypes.get? (r.types.getD i 0), psum r.memids i,
            data.strings.get? (r.roles_sid.getD i 0)⟩) ∧
      memberTypes.get? 0 = some "node" ∧ memberTypes.get? 1 = some "way" ∧
      memberTypes.get? 2 = some "relation" := by
  obtain ⟨-, -, hm, h1, h2, -⟩ := parse_rel_ok data r e h
  refine ⟨hm, relMembers_length data.strings 0 r.memids r.types r.roles_sid h1 h2,
    fun i hi => ?_, rfl, rfl, rfl⟩
  have := relMembers_get data.strings 0 r.memids r.types r.roles_sid i h1 h2 hi
  rwa [zero_add] at this

/-! ## Dense node field lemmas -/

@[simp] theorem denseNodeBase_type (data : Data) (d : DenseMsg) (kv : List Nat)
    (aid alat alon : Int) : (denseNodeBase data d kv aid alat alon).1.type = "node" := by
  unfold denseNodeBase; split <;> simp

@[simp] theorem denseNodeBase_id (data : Data) (d : DenseMsg) (kv : List Nat)
    (aid alat alon : Int) : (denseNodeBase data d kv aid alat alon).1.id = aid := by
  unfold denseNodeBase; split <;> simp

@[simp] theorem denseNodeBase_lat (data : Data) (d : DenseMsg) (kv : List Nat)
    (aid alat alon : Int) : (denseNodeBase data d kv aid alat alon).1.lat =
      some (data.lat_offset + (alat : ℚ) / data.granularity) := by
  unfold denseNodeBase; split <;> simp

@[simp] theorem denseNodeBase_lon (data : Data) (d : DenseMsg) (kv : List Nat)
    (aid alat alon : Int) : (denseNodeBase data d kv aid alat alon).1.lon =
      some (data.lon_offset + (alon : ℚ) / data.granularity) := by
  unfold denseNodeBase; split <;> simp

@[simp] theorem denseNodeBase_refs (data : Data) (d : DenseMsg) (kv : List Nat)
    (aid alat alon : Int) : (denseNodeBase data d kv aid alat alon).1.refs = none := by
  unfold denseNodeBase; split <;> simp

@[simp] theorem denseNodeBase_members (data : Data) (d : DenseMsg) (kv : List Nat)
    (aid alat alon : Int) : (denseNodeBase data d kv aid alat alon).1.members = none := by
  unfold denseNodeBase; split <;> simp

@[simp] theorem denseNodeBase_info (data : Data) (d : DenseMsg) (kv : List Nat)
    (aid alat alon : Int) : (denseNodeBase data d kv aid alat alon).1.info = none := by
  unfold denseNodeBase; split <;> simp

theorem get?_getD_of_lt (l : List Int) (i : Nat) (h : i < l.length) :
    l.get? i = some (l.getD i 0) := by
  cases hv : l.get? i with
  | none =>
      rw [List.get?_eq_none] at hv
      omega
  | some v =>
      rw [List.getD_eq_getElem?_getD, ← List.get?_eq_getElem?, hv]
      rfl

/-! ## Dense group characterization -/

/-- The dense loop reverses every delta chain by prefix sums: starting at
element i with the accumulators holding the prefix sums up to i, the
emitted entity of index j is the node of absolute index i+j, its id and
raw coordinates being the prefix sums of the first i+j+1 deltas, and its
info (when enabled and present) built from the DenseInfo prefix sums. -/
theorem denseGo_spec (data : Data) (d : DenseMsg)
    (hlat : d.id.length = d.lat.length) (hlon : d.id.length = d.lon.length) :
    ∀ (ids lats lons : List Int) (i : Nat) (kv : List Nat)
      (ats acs auid ausid : Int) (out : List Entity),
      ids = d.id.drop i → lats = d.lat.drop i → lons = d.lon.drop i →
      (∀ dinfo, data.withInfo = true → d.denseinfo = some dinfo →
        ats = presum dinfo.timestamp i ∧ acs = presum dinfo.changeset i ∧
          auid = presum dinfo.uid i ∧ ausid = presum dinfo.user_sid i) →
      denseGo data d i ids lats lons kv (presum d.id i) (presum d.lat i)
          (presum d.lon i) ats acs auid ausid = .ok out →
      out.length = ids.length ∧
        ∀ j e, out.get? j = some e →
          e.type = "node" ∧ e.id = psum d.id (i + j) ∧
            e.lat = some (data.lat_offset + (psum d.lat (i + j) : ℚ) / data.granularity) ∧
            e.lon = some (data.lon_offset + (psum d.lon (i + j) : ℚ) / data.granularity) ∧
            e.refs = none ∧ e.members = none ∧
            (∀ dinfo, data.withInfo = true → d.denseinfo = some dinfo →
              e.info = denseInfoAt data dinfo (i + j)) ∧
            ((data.withInfo = false ∨ d.denseinfo = none) → e.info = none) := by
  intro ids
  induction ids with
  | nil =>
      intro lats lons i kv ats acs auid ausid out hid hlats hlons hacc h
      have h0 : d.id.length - i = 0 := by
        have := congrArg List.length hid
        simp only [List.length_nil, List.length_drop] at this
        omega
      have hlats0 : lats = [] := by
        apply List.eq_nil_of_length_eq_zero
        rw [hlats, List.length_drop]
        omega
      have hlons0 : lons = [] := by
        apply List.eq_nil_of_length_eq_zero
        rw [hlons, List.length_drop]
        omega
      subst hlats0
      subst hlons0
      simp only [denseGo] at h
      injection h with h
      subst h
      exact ⟨rfl, fun j e hj => by simp at hj⟩
  | cons di ids2 ih =>
      intro lats lons i kv ats acs auid ausid out hid hlats hlons hacc h
      have hidlen : ids2.length + 1 = d.id.length - i := by
        have := congrArg List.length hid
        simpa [List.length_drop] using this
      have hi : i < d.id.length := by omega
      have hidg : d.id.get? i = some di := drop_cons_get d.id i di ids2 hid.symm
      have hidd : d.id.drop (i + 1) = ids2 := drop_cons_succ d.id i di ids2 hid.symm
      obtain ⟨dlat, lats2, rfl⟩ : ∃ a t, lats = a :: t := by
        cases lats with
        | nil =>
            have := congrArg List.length hlats
            simp only [List.length_nil, List.length_drop] at this
            omega
        | cons a t => exact ⟨a, t, rfl⟩
      obtain ⟨dlon, lons2, rfl⟩ : ∃ a t, lons = a :: t := by
        cases lons with
        | nil =>
            have := congrArg List.length hlons
            simp only [List.length_nil, List.length_drop] at this
            omega
        | cons a t => exact ⟨a, t, rfl⟩
      have hlatg : d.lat.get? i = some dlat := drop_cons_get d.lat i dlat lats2 hlats.symm
      have hlatd : d.lat.drop (i + 1) = lats2 := drop_cons_succ d.lat i dlat lats2 hlats.symm
      have hlong : d.lon.get? i = some dlon := drop_cons_get d.lon i dlon lons2 hlons.symm
      have hlond : d.lon.drop (i + 1) = lons2 := drop_cons_succ d.lon i dlon lons2 hlons.symm
      have hpid : presum d.id i + di = presum d.id (i + 1) :=
        (presum_succ_get d.id i di hidg).symm
      have hplat : presum d.lat i + dlat = presum d.lat (i + 1) :=
        (presum_succ_get d.lat i dlat hlatg).symm
      have hplon : presum d.lon i + dlon = presum d.lon (i + 1) :=
        (presum_succ_get d.lon i dlon hlong).symm
      simp only [denseGo] at h
      rw [hpid, hplat, hplon] at h
      cases hwi : data.withInfo with
      | false =>
          simp only [hwi] at h
          split at h
          · rename_i rest heq
            injection h with h
            subst h
            have hacc2 : ∀ (dinfo : DenseInfoMsg), data.withInfo = true →
                d.denseinfo = some dinfo →
                ats = presum dinfo.timestamp (i + 1) ∧
                  acs = presum dinfo.changeset (i + 1) ∧
                  auid = presum dinfo.uid (i + 1) ∧
                  ausid = presum dinfo.user_sid (i + 1) := by
              intro dinfo hw
              rw [hwi] at hw
              simp at hw
            obtain ⟨ihlen, ihpt⟩ := ih lats2 lons2 (i + 1) _ ats acs auid ausid rest
              hidd.symm hlatd.symm hlond.symm hacc2 heq
            refine ⟨by simp [ihlen], fun j e hj => ?_⟩
            cases j with
            | zero =>
                simp only [List.get?_cons_zero, Option.some.injEq] at hj
                subst hj
                refine ⟨by simp, by simp [psum], by simp [psum], by simp [psum],
                  by simp, by simp, ?_, by simp⟩
                intro dinfo hw
                simp at hw
            | succ j =>
                simp only [List.get?_cons_succ] at hj
                have := ihpt j e hj
                rw [hwi] at this
                rwa [show i + 1 + j = i + (j + 1) from by omega] at this
          · rename_i err heq
            cases h
      | true =>
          simp only [hwi] at h
          cases hdi : d.denseinfo with
          | none =>
              simp only [hdi] at h
              split at h
              · rename_i rest heq
                injection h with h
                subst h
                have hacc2 : ∀ (dinfo : DenseInfoMsg), data.withInfo = true →
                    d.denseinfo = some dinfo →
                    ats = presum dinfo.timestamp (i + 1) ∧
                      acs = presum dinfo.changeset (i + 1) ∧
                      auid = presum dinfo.uid (i + 1) ∧
                      ausid = presum dinfo.user_sid (i + 1) := by
                  intro dinfo _ hd
                  rw [hdi] at hd
                  simp at hd
                obtain ⟨ihlen, ihpt⟩ := ih lats2 lons2 (i + 1) _ ats acs auid ausid rest
                  hidd.symm hlatd.symm hlond.symm hacc2 heq
                refine ⟨by simp [ihlen], fun j e hj => ?_⟩
                cases j with
                | zero =>
                    simp only [List.get?_cons_zero, Option.some.injEq] at hj
                    subst hj
                    refine ⟨by simp, by simp [psum], by simp [psum], by simp [psum],
                      by simp, by simp, ?_, by simp⟩
                    intro dinfo _ hd
                    simp at hd
                | succ j =>
                    simp only [List.get?_cons_succ] at hj
                    have := ihpt j e hj
                    rw [hwi, hdi] at this
                    rwa [show i + 1 + j = i + (j + 1) from by omega] at this
              · rename_i err heq
                cases h
          | some dinfo =>
              simp only [hdi] at h
              split at h
              · rename_i hlen5
                obtain ⟨hl1, hl2, hl3, hl4, hl5⟩ := hlen5
                obtain ⟨hts, hcs, huid, husid⟩ := hacc dinfo hwi hdi
                have hpts : presum dinfo.timestamp i + dinfo.timestamp.getD i 0 =
                    presum dinfo.timestamp (i + 1) :=
                  (presum_succ_get _ i _ (get?_getD_of_lt _ i (by omega))).symm
                have hpcs : presum dinfo.changeset i + dinfo.changeset.getD i 0 =
                    presum dinfo.changeset (i + 1) :=
                  (presum_succ_get _ i _ (get?_getD_of_lt _ i (by omega))).symm
                have hpuid : presum dinfo.uid i + dinfo.uid.getD i 0 =
                    presum dinfo.uid (i + 1) :=
                  (presum_succ_get _ i _ (get?_getD_of_lt _ i (by omega))).symm
                have hpusid : presum dinfo.user_sid i + dinfo.user_sid.getD i 0 =
                    presum dinfo.user_sid (i + 1) :=
                  (presum_succ_get _ i _ (get?_getD_of_lt _ i (by omega))).symm
                rw [hts, hcs, huid, husid, hpts, hpcs, hpuid, hpusid] at h
                split at h
                · rename_i rest heq
                  injection h with h
                  subst h
                  have hacc2 : ∀ (dinfo2 : DenseInfoMsg), data.withInfo = true →
                      d.denseinfo = some dinfo2 →
                      presum dinfo.timestamp (i + 1) = presum dinfo2.timestamp (i + 1) ∧
                        presum dinfo.changeset (i + 1) = presum dinfo2.changeset (i + 1) ∧
                        presum dinfo.uid (i + 1) = presum dinfo2.uid (i + 1) ∧
                        presum dinfo.user_sid (i + 1) = presum dinfo2.user_sid (i + 1) := by
                    intro dinfo2 _ hd2
                    rw [hdi] at hd2
                    injection hd2 with hd2
                    subst hd2
                    exact ⟨rfl, rfl, rfl, rfl⟩
                  obtain ⟨ihlen, ihpt⟩ := ih lats2 lons2 (i + 1) _
                    (presum dinfo.timestamp (i + 1)) (presum dinfo.changeset (i + 1))
                    (presum dinfo.uid (i + 1)) (presum dinfo.user_sid (i + 1)) rest
                    hidd.symm hlatd.symm hlond.symm hacc2 heq
                  refine ⟨by simp [ihlen], fun j e hj => ?_⟩
                  cases j with
                  | zero =>
                      simp only [List.get?_cons_zero, Option.some.injEq] at hj
                      subst hj
                      refine ⟨by simp, by simp [psum], by simp [psum], by simp [psum],
                        by simp, by simp, ?_, ?_⟩
                      · intro dinfo2 _ hd2
                        injection hd2 with hd2
                        subst hd2
                        rw [attachInfo_info, denseNodeBase_info]
                        simp [denseInfoAt, psum]
                      · intro hcase
                        rcases hcase with hF | hN
                        · simp at hF
                        · simp at hN
                  | succ j =>
                      simp only [List.get?_cons_succ] at hj
                      have := ihpt j e hj
                      rw [hwi, hdi] at this
                      rwa [show i + 1 + j = i + (j + 1) from by omega] at this
                · rename_i err heq
                  cases h
              · cases h

/-- parse_dense emits one node per dense id, in order, with all delta
chains reversed by prefix sums. -/
theorem parse_dense_spec (data : Data) (d : DenseMsg) (out : List Entity)
    (h : parse_dense data d = .ok out) :
    out.length = d.id.length ∧
      ∀ j e, out.get? j = some e →
        e.type = "node" ∧ e.id = psum d.id j ∧
          e.lat = some (data.lat_offset + (psum d.lat j : ℚ) / data.granularity) ∧
          e.lon = some (data.lon_offset + (psum d.lon j : ℚ) / data.granularity) ∧
          e.refs = none ∧ e.members = none ∧
          (∀ dinfo, data.withInfo = true → d.denseinfo = some dinfo →
            e.info = denseInfoAt data dinfo j) ∧
          ((data.withInfo = false ∨ d.denseinfo = none) → e.info = none) := by
  unfold parse_dense at h
  split at h
  · rename_i hlen
    have := denseGo_spec data d hlen.1 hlen.2 d.id d.lat d.lon 0 d.keys_vals
      0 0 0 0 out rfl rfl rfl (fun dinfo _ _ => ⟨rfl, rfl, rfl, rfl⟩) h
    obtain ⟨hl, hpt⟩ := this
    refine ⟨by simpa using hl, fun j e hj => ?_⟩
    have := hpt j e hj
    simpa using this
  · cases h


/-! ## C2: delta reversal by prefix sum -/

/-- C2: in a dense group the emitted node of index j has id and raw
coordinates equal to the sums of the first j+1 deltas (so id deltas
[10, 5, -3] yield ids 10, 15, 12), the DenseInfo delta fields are reversed
by the same prefix sums before entering fill_info, and a way's emitted
refs array is the prefix-sum sequence of its refs deltas. -/
theorem c2_delta_prefix_sums :
    (∀ (data : Data) (d : DenseMsg) (out : List Entity),
      parse_dense data d = .ok out →
      out.length = d.id.length ∧
        ∀ j e, out.get? j = some e →
          e.id = psum d.id j ∧
            e.lat = some (data.lat_offset + (psum d.lat j : ℚ) / data.granularity) ∧
            e.lon = some (data.lon_offset + (psum d.lon j : ℚ) / data.granularity) ∧
            (∀ dinfo, data.withInfo = true → d.denseinfo = some dinfo →
              e.info = denseInfoAt data dinfo j)) ∧
      (∀ (data : Data) (w : WayMsg) (e : Entity), parse_way data w = .ok e →
        e.refs = some (deltaScan 0 w.refs) ∧
          ∀ i, i < w.refs.length →
            (deltaScan 0 w.refs).get? i = some (psum w.refs i)) ∧
      psum [10, 5, -3] 0 = 10 ∧ psum [10, 5, -3] 1 = 15 ∧
        psum [10, 5, -3] 2 = 12 := by
  refine ⟨fun data d out h => ?_, fun data w e h => ?_, by decide, by decide, by decide⟩
  · obtain ⟨hl, hpt⟩ := parse_dense_spec data d out h
    exact ⟨hl, fun j e hj => by
      obtain ⟨-, h1, h2, h3, -, -, h4, -⟩ := hpt j e hj
      exact ⟨h1, h2, h3, h4⟩⟩
  · obtain ⟨-, -, hr, -⟩ := parse_way_ok data w e h
    refine ⟨hr, fun i hi => ?_⟩
    have := deltaScan_get 0 w.refs i hi
    rwa [zero_add] at this

/-- Witness for C2: the dense group with id deltas [10, 5, -3] parses to
ids 10, 15, 12 and the theorem applies to it. -/
theorem c2_witness :
    parse_dense baseData denseW = .ok denseWOut ∧
      denseWOut.length = denseW.id.length ∧
      (denseWOut.get? 2).map Entity.id = some (psum denseW.id 2) := by
  have hp : parse_dense baseData denseW = .ok denseWOut := by
    simp only [parse_dense, denseGo, denseNodeBase, baseData, denseW, denseWOut,
      TagSel.isOn, Entity.mk.injEq, Except.ok.injEq, List.cons.injEq]
    norm_num
  refine ⟨hp, (c2_delta_prefix_sums.1 baseData denseW denseWOut hp).1, ?_⟩
  have := ((c2_delta_prefix_sums.1 baseData denseW denseWOut hp).2 2
    { type := "node", id := 12, lat := some (6 / 10000000), lon := some 0 }
    (by rfl)).1
  simp only [denseWOut]
  rw [List.get?_cons_succ, List.get?_cons_succ, List.get?_cons_zero]
  simpa using this

/-! ## C3: coordinate conversion -/

/-- C3: the divisor parse computes equals the granularity scale in the
specification's words, and every emitted node (plain or dense) carries
lat = lat_offset·1e-9 + lat_raw / scale, lon likewise; at granularity 100
with zero offset, raw latitude 330000000 gives exactly 33 degrees. -/
theorem c3_coordinate_formula :
    (∀ (b : PBlock) (tags : NormTags) (wi : Bool),
      (mkData b tags wi).granularity = specGranularityScale b.granularity ∧
        (mkData b tags wi).lat_offset = (b.lat_offset : ℚ) * (1 / 1000000000) ∧
        (mkData b tags wi).lon_offset = (b.lon_offset : ℚ) * (1 / 1000000000)) ∧
      (∀ (b : PBlock) (tags : NormTags) (wi : Bool) (n : NodeMsg) (e : Entity),
        parse_node (mkData b tags wi) n = .ok e →
        e.lat = some ((b.lat_offset : ℚ) * (1 / 1000000000) +
          (n.lat : ℚ) / specGranularityScale b.granularity) ∧
          e.lon = some ((b.lon_offset : ℚ) * (1 / 1000000000) +
            (n.lon : ℚ) / specGranularityScale b.granularity)) ∧
      (∀ (b : PBlock) (tags : NormTags) (wi : Bool) (d : DenseMsg)
        (out : List Entity) (j : Nat) (e : Entity),
        parse_dense (mkData b tags wi) d = .ok out → out.get? j = some e →
        e.lat = some ((b.lat_offset : ℚ) * (1 / 1000000000) +
          (psum d.lat j : ℚ) / specGranularityScale b.granularity) ∧
          e.lon = some ((b.lon_offset : ℚ) * (1 / 1000000000) +
            (psum d.lon j : ℚ) / specGranularityScale b.granularity)) ∧
      (0 : ℚ) * (1 / 1000000000) +
          (330000000 : ℚ) / specGranularityScale 100 = 33 := by
  refine ⟨fun b tags wi => ⟨rfl, rfl, rfl⟩, fun b tags wi n e h => ?_,
    fun b tags wi d out j e h hj => ?_, by norm_num [specGranularityScale]⟩
  · obtain ⟨-, -, h1, h2, -, -⟩ := parse_node_ok (mkData b tags wi) n e h
    exact ⟨h1, h2⟩
  · obtain ⟨-, -, h1, h2, -, -, -, -⟩ := (parse_dense_spec (mkData b tags wi) d out h).2 j e hj
    exact ⟨h1, h2⟩

/-- Witness for C3: the node with raw latitude 330000000 in a block of
granularity 100 parses to latitude exactly 33. -/
theorem c3_witness :
    parse_node (mkData coordBlock ⟨.no, .no, .no⟩ false) coordNode = .ok coordEntity ∧
      coordEntity.lat = some ((coordBlock.lat_offset : ℚ) * (1 / 1000000000) +
        (coordNode.lat : ℚ) / specGranularityScale coordBlock.granularity) ∧
      coordEntity.lat = some 33 := by
  have hp : parse_node (mkData coordBlock ⟨.no, .no, .no⟩ false) coordNode =
      .ok coordEntity := by
    simp only [parse_node, nodeRec, mkData, addInfo, coordBlock, coordNode,
      coordEntity, TagSel.isOn, Entity.mk.injEq, Except.ok.injEq]
    norm_num
  exact ⟨hp, (c3_coordinate_formula.2.1 coordBlock ⟨.no, .no, .no⟩ false
    coordNode coordEntity hp).1, rfl⟩

/-- Witness for C4: the specification's example relation parses to the
three members (node, 5, "from"), (way, 15, "to"), (relation, 13, "from"),
and the theorem applies to it. -/
theorem c4_witness :
    parse_rel relData relW = .ok relWOut ∧
      relWOut.members =
        some (relMembers relData.strings 0 relW.memids relW.types relW.roles_sid) := by
  have hp : parse_rel relData relW = .ok relWOut := by rfl
  exact ⟨hp, (c4_relation_members relData relW relWOut hp).1⟩

/-! ## C6: raw-blob acceptance -/

/-- Counterexample to C6 as stated: a data (OSMData) blob carrying raw
bytes but no zlib_data is rejected by the assert of src/parser.js 105, not
decoded from its raw bytes as the claim says for every framed blob. -/
theorem c6_counterexample :
    dataBlobBytes { raw := some [1, 2, 3] } =
      .error "inflating undefined not implemented" := rfl

/-- C6 (amended): only for the header blob does the decoder fall back to
the raw bytes when zlib_data is absent; a data blob requires zlib_data and
raw-only data blobs are rejected; a blob having neither field is rejected
in both positions. -/
theorem c6_blob_compression (inflate : List Nat → List Nat) (b : BlobMsg) :
    (∀ r, b.zlib_data = none → b.raw = some r →
        headerBlobBytes inflate b = .ok r) ∧
      (∀ z, b.zlib_data = some z →
        headerBlobBytes inflate b = .ok (inflate z) ∧ dataBlobBytes b = .ok z) ∧
      (b.raw = none → b.zlib_data = none →
        headerBlobBytes inflate b = .error "inflating undefined not implemented" ∧
          dataBlobBytes b = .error "inflating undefined not implemented") ∧
      (b.zlib_data = none →
        dataBlobBytes b = .error "inflating undefined not implemented") := by
  refine ⟨fun r hz hr => ?_, fun z hz => ?_, fun hr hz => ?_, fun hz => ?_⟩
  · simp [headerBlobBytes, hz, hr]
  · simp [headerBlobBytes, dataBlobBytes, hz]
  · simp [headerBlobBytes, dataBlobBytes, hz, hr]
  · simp [dataBlobBytes, hz]

/-- Witness for C6: a raw-only blob is accepted in header position and a
zlib blob in both positions. -/
theorem c6_witness :
    headerBlobBytes id { raw := some [9] } = .ok [9] ∧
      dataBlobBytes { zlib_data := some [4] } = .ok [4] :=
  ⟨(c6_blob_compression id { raw := some [9] }).1 [9] rfl rfl,
    ((c6_blob_compression id { zlib_data := some [4] }).2.1 [4] rfl).2⟩

/-! ## C7: withTags normalization -/

/-- Counterexample to C7 as stated: a withTags value that is neither a
boolean nor an object (the number 5, say) does not raise the configuration
error; with_tags skips the object branch, keeps the empty result object
and returns it, which every use site reads as all tags disabled. -/
theorem c7_counterexample :
    with_tags .oother = .ok ⟨.no, .no, .no⟩ := rfl

/-- C7 (amended): true includes all tags for the three kinds and false
none; in a per-entity object a boolean is kept, a non-empty array becomes
its key set, an empty array behaves as false and a missing property as
true, and a property of any other type raises the configuration error at
construction; but a top-level value that is neither boolean nor object is
not an error: it normalizes to the empty object, i.e. no tags at all. -/
theorem c7_with_tags (n w r : Option JVal) (sn sw sr : TagSel) :
    (with_tags (.obool true) = .ok ⟨.yes, .yes, .yes⟩) ∧
      (with_tags (.obool false) = .ok ⟨.no, .no, .no⟩) ∧
      (normJVal (.vbool true) = some .yes ∧ normJVal (.vbool false) = some .no) ∧
      (normJVal (.varr []) = some .no) ∧
      (∀ k keys, normJVal (.varr (k :: keys)) = some (.only (k :: keys))) ∧
      (with_tags (.oobj none none none) = .ok ⟨.yes, .yes, .yes⟩) ∧
      (normJVal (n.getD (.vbool true)) = some sn →
        normJVal (w.getD (.vbool true)) = some sw →
        normJVal (r.getD (.vbool true)) = some sr →
        with_tags (.oobj n w r) = .ok ⟨sn, sw, sr⟩) ∧
      ((n = some .vother ∨ w = some .vother ∨ r = some .vother) →
        with_tags (.oobj n w r) = .error "wrong withTags option.") ∧
      (with_tags .oother = .ok ⟨.no, .no, .no⟩) := by
  refine ⟨rfl, rfl, ⟨rfl, rfl⟩, rfl, fun k keys => rfl, rfl,
    fun hn hw hr => ?_, fun hbad => ?_, rfl⟩
  · simp [with_tags, hn, hw, hr]
  · rcases hbad with hb | hb | hb <;> subst hb
    · cases hw : normJVal (w.getD (.vbool true)) <;>
        cases hr : normJVal (r.getD (.vbool true)) <;>
          simp [with_tags, hw, hr, normJVal]
    · cases hn : normJVal (n.getD (.vbool true)) <;>
        cases hr : normJVal (r.getD (.vbool true)) <;>
          simp [with_tags, hn, hr, normJVal]
    · cases hn : normJVal (n.getD (.vbool true)) <;>
        cases hw : normJVal (w.getD (.vbool true)) <;>
          simp [with_tags, hn, hw, normJVal]

/-- Witness for C7: a per-entity object with a key list for nodes, an
empty list for ways and a missing relation property normalizes to
(set, false, true); a bad property value errors. -/
theorem c7_witness :
    normJVal ((some (JVal.varr ["name"])).getD (.vbool true)) =
        some (.only ["name"]) ∧
      with_tags (.oobj (some (.varr ["name"])) (some (.varr [])) none) =
        .ok ⟨.only ["name"], .no, .yes⟩ ∧
      with_tags (.oobj (some .vother) none none) =
        .error "wrong withTags option." :=
  ⟨rfl,
    (c7_with_tags (some (.varr ["name"])) (some (.varr [])) none
        (.only ["name"]) .no .yes).2.2.2.2.2.2.1 rfl rfl rfl,
    (c7_with_tags (some .vother) none none .no .no .no).2.2.2.2.2.2.2.1
      (Or.inl rfl)⟩

/-! ## C5: info omission -/

theorem addInfo_off (data : Data) (oi : Option InfoMsg) (e : Entity)
    (h : data.withInfo = false) : addInfo data oi e = e := by
  unfold addInfo
  rw [h]
  simp

theorem parse_node_info_none (data : Data) (n : NodeMsg) (e : Entity)
    (hwi : data.withInfo = false) (h : parse_node data n = .ok e) :
    e.info = none := by
  unfold parse_node at h
  split at h
  · split at h
    · injection h with h
      subst h
      rw [addInfo_off data _ _ hwi]
      simp [nodeRec]
    · cases h
  · injection h with h
    subst h
    rw [addInfo_off data _ _ hwi]
    simp [nodeRec]

theorem parse_way_info_none (data : Data) (w : WayMsg) (e : Entity)
    (hwi : data.withInfo = false) (h : parse_way data w = .ok e) :
    e.info = none := by
  unfold parse_way at h
  split at h
  · split at h
    · injection h with h
      subst h
      rw [addInfo_off data _ _ hwi]
      simp [wayRec]
    · cases h
  · injection h with h
    subst h
    rw [addInfo_off data _ _ hwi]
    simp [wayRec]

theorem parse_rel_info_none (data : Data) (r : RelMsg) (e : Entity)
    (hwi : data.withInfo = false) (h : parse_rel data r = .ok e) :
    e.info = none := by
  unfold parse_rel at h
  split at h
  · split at h
    · split at h
      · injection h with h
        subst h
        rw [addInfo_off data _ _ hwi]
        simp [relRec]
      · cases h
    · injection h with h
      subst h
      rw [addInfo_off data _ _ hwi]
      simp [relRec]
  · cases h

theorem parseList_info_none {β : Type} (f : β → Except String Entity)
    (hf : ∀ x e, f x = .ok e → e.info = none) :
    ∀ (xs : List β) (l : List Entity), parseList f xs = .ok l →
      ∀ e ∈ l, e.info = none := by
  intro xs
  induction xs with
  | nil =>
      intro l h e he
      injection h with h
      subst h
      simp at he
  | cons x xs ih =>
      intro l h e he
      unfold parseList at h
      split at h
      · rename_i e0 he0
        split at h
        · rename_i es hes
          injection h with h
          subst h
          rcases List.mem_cons.mp he with rfl | hmem
          · exact hf x e he0
          · exact ih es hes e hmem
        · cases h
      · cases h

theorem parse_dense_info_none (data : Data) (d : DenseMsg) (l : List Entity)
    (hwi : data.withInfo = false) (h : parse_dense data d = .ok l) :
    ∀ e ∈ l, e.info = none := by
  intro e he
  obtain ⟨j, hj⟩ := List.mem_iff_get?.mp he
  exact ((parse_dense_spec data d l h).2 j e hj).2.2.2.2.2.2.2 (Or.inl hwi)

theorem parseGroup_info_none (data : Data) (g : PGroup) (l : List Entity)
    (hwi : data.withInfo = false) (h : parseGroup data g = .ok l) :
    ∀ e ∈ l, e.info = none := by
  unfold parseGroup at h
  split at h
  · cases h
  · split at h
    · cases h
    · rename_i ns hns
      split at h
      · cases h
      · rename_i ds hds
        split at h
        · cases h
        · rename_i ws hws
          split at h
          · cases h
          · rename_i rs hrs
            injection h with h
            subst h
            intro e he
            rcases List.mem_append.mp he with he2 | hrsm
            · rcases List.mem_append.mp he2 with he3 | hwsm
              · rcases List.mem_append.mp he3 with hnsm | hdsm
                · exact parseList_info_none (parse_node data)
                    (fun x ex hx => parse_node_info_none data x ex hwi hx)
                    g.nodes ns hns e hnsm
                · revert hds
                  cases g.dense with
                  | some d =>
                      intro hds
                      exact parse_dense_info_none data d ds hwi hds e hdsm
                  | none =>
                      intro hds
                      injection hds with hds
                      subst hds
                      simp at hdsm
              · exact parseList_info_none (parse_way data)
                  (fun x ex hx => parse_way_info_none data x ex hwi hx)
                  g.ways ws hws e hwsm
            · exact parseList_info_none (parse_rel data)
                (fun x ex hx => parse_rel_info_none data x ex hwi hx)
                g.relations rs hrs e hrsm

theorem parseGroups_info_none (data : Data) (hwi : data.withInfo = false) :
    ∀ (gs : List PGroup) (l : List Entity), parseGroups data gs = .ok l →
      ∀ e ∈ l, e.info = none := by
  intro gs
  induction gs with
  | nil =>
      intro l h e he
      injection h with h
      subst h
      simp at he
  | cons g gs ih =>
      intro l h e he
      unfold parseGroups at h
      split at h
      · rename_i es hes
        split at h
        · rename_i rest hrest
          injection h with h
          subst h
          rcases List.mem_append.mp he with hm | hm
          · exact parseGroup_info_none data g es hwi hes e hm
          · exact ih rest hrest e hm
        · cases h
      · cases h

/-- C5: fill_info omits version, changeset and uid when 0, includes
timestamp scaled by date_granularity when non-zero and omits it when 0,
omits user when the resolved string is absent or empty, keeps visible only
when explicitly false; an info that ends up empty is not attached; and with
withInfo = false no emitted entity carries info at all. -/
theorem c5_info_omission (data : Data) (im : InfoMsg) :
    ((fill_info data im).version = if im.version = 0 then none else some im.version) ∧
      ((fill_info data im).timestamp =
        if im.timestamp = 0 then none
        else some (im.timestamp * data.date_granularity)) ∧
      ((fill_info data im).changeset =
        if im.changeset = 0 then none else some im.changeset) ∧
      ((fill_info data im).uid = if im.uid = 0 then none else some im.uid) ∧
      ((strAt data.strings im.user_sid = none ∨
          strAt data.strings im.user_sid = some "") →
        (fill_info data im).user = none) ∧
      ((fill_info data im).visible =
        if im.visible = some false then some false else none) ∧
      (∀ e, (fill_info data im).isEmpty = true →
        (addInfo data (some im) e).info = e.info) ∧
      (∀ (b : PBlock) (tags : NormTags) (l : List Entity),
        parse b tags false = .ok l → ∀ e ∈ l, e.info = none) := by
  refine ⟨by simp [fill_info, ite_not], by simp [fill_info, ite_not],
    by simp [fill_info, ite_not], by simp [fill_info, ite_not],
    fun hres => ?_, by simp [fill_info], fun e hempty => ?_,
    fun b tags l h e he => ?_⟩
  · by_cases hsid : im.user_sid = 0
    · simp [fill_info, hsid]
    · rcases hres with hr | hr <;> simp [fill_info, hsid, hr]
  · unfold addInfo
    split
    · simp [attachInfo, hempty]
    · rfl
  · exact parseGroups_info_none (mkData b tags false) rfl b.primitivegroup l h e he

/-- Witness for C5: a concrete info record with version 0, timestamp 3 and
empty user resolves per the omission rules, and the empty info of the
all-zero record is not attached. -/
theorem c5_witness :
    (fill_info baseData ⟨0, 3, 0, 0, 0, none⟩).version = none ∧
      (fill_info baseData ⟨0, 3, 0, 0, 0, none⟩).timestamp = some 3000 ∧
      (addInfo baseData (some ⟨0, 0, 0, 0, 0, none⟩)
          { type := "node" }).info = none ∧
      (strAt baseData.strings 0 = none ∨ strAt baseData.strings 0 = some "") ∧
      (fill_info baseData ⟨0, 3, 0, 0, 0, none⟩).user = none := by
  obtain ⟨h1, h2, -, -, h5, -, h7, -⟩ :=
    c5_info_omission baseData ⟨0, 3, 0, 0, 0, none⟩
  obtain ⟨-, -, -, -, -, -, h7z, -⟩ :=
    c5_info_omission baseData ⟨0, 0, 0, 0, 0, none⟩
  refine ⟨by rw [h1]; rfl, by rw [h2]; rfl, ?_, Or.inl rfl, h5 (Or.inl rfl)⟩
  have := h7z { type := "node" } (by rfl)
  rw [this]

/-! ## C8: parallel-array mismatches -/

/-- When the DenseInfo length assertion cannot fire (info disabled, info
absent, or all five arrays parallel to the ids), the dense loop never
throws. -/
theorem denseGo_ok (data : Data) (d : DenseMsg)
    (hinfo : data.withInfo = true → ∀ dinfo, d.denseinfo = some dinfo →
      d.id.length = dinfo.timestamp.length ∧
        d.id.length = dinfo.changeset.length ∧
        d.id.length = dinfo.uid.length ∧
        d.id.length = dinfo.user_sid.length ∧
        d.id.length = dinfo.version.length) :
    ∀ (ids lats lons : List Int) (i : Nat) (kv : List Nat)
      (a1 a2 a3 a4 a5 a6 a7 : Int),
      ∃ out, denseGo data d i ids lats lons kv a1 a2 a3 a4 a5 a6 a7 = .ok out := by
  intro ids
  induction ids with
  | nil =>
      intro lats lons i kv a1 a2 a3 a4 a5 a6 a7
      cases lats <;> cases lons <;> exact ⟨[], by simp [denseGo]⟩
  | cons di ids2 ih =>
      intro lats lons i kv a1 a2 a3 a4 a5 a6 a7
      cases lats with
      | nil => exact ⟨[], by simp [denseGo]⟩
      | cons dlat lats2 =>
          cases lons with
          | nil => exact ⟨[], by simp [denseGo]⟩
          | cons dlon lons2 =>
              cases hwi : data.withInfo with
              | false =>
                  obtain ⟨out, hout⟩ := ih lats2 lons2 (i + 1)
                    (denseNodeBase data d kv (a1 + di) (a2 + dlat) (a3 + dlon)).2
                    (a1 + di) (a2 + dlat) (a3 + dlon) a4 a5 a6 a7
                  cases hdi : d.denseinfo <;>
                    exact ⟨(denseNodeBase data d kv (a1 + di) (a2 + dlat) (a3 + dlon)).1
                        :: out,
                      by simp only [denseGo, hwi, hdi, hout]⟩
              | true =>
                  cases hdi : d.denseinfo with
                  | none =>
                      obtain ⟨out, hout⟩ := ih lats2 lons2 (i + 1)
                        (denseNodeBase data d kv (a1 + di) (a2 + dlat) (a3 + dlon)).2
                        (a1 + di) (a2 + dlat) (a3 + dlon) a4 a5 a6 a7
                      exact ⟨(denseNodeBase data d kv (a1 + di) (a2 + dlat) (a3 + dlon)).1
                          :: out,
                        by simp only [denseGo, hwi, hdi, hout]⟩
                  | some dinfo =>
                      obtain ⟨out, hout⟩ := ih lats2 lons2 (i + 1)
                        (denseNodeBase data d kv (a1 + di) (a2 + dlat) (a3 + dlon)).2
                        (a1 + di) (a2 + dlat) (a3 + dlon)
                        (a4 + dinfo.timestamp.getD i 0) (a5 + dinfo.changeset.getD i 0)
                        (a6 + dinfo.uid.getD i 0) (a7 + dinfo.user_sid.getD i 0)
                      refine ⟨attachInfo
                        (denseNodeBase data d kv (a1 + di) (a2 + dlat) (a3 + dlon)).1
                        (fill_info data ⟨dinfo.version.getD i 0,
                          a4 + dinfo.timestamp.getD i 0, a5 + dinfo.changeset.getD i 0,
                          a6 + dinfo.uid.getD i 0, a7 + dinfo.user_sid.getD i 0,
                          dinfo.visible.get? i⟩) :: out, ?_⟩
                      simp only [denseGo, hwi, hdi]
                      rw [if_pos (hinfo hwi dinfo hdi), hout]

/-- Counterexample to C8 as stated: a block whose way has keys [1] and no
vals parses without any error when way tags are disabled; the mismatch is
not checked, so it is not fatal regardless of settings. -/
theorem c8_counterexample :
    parse mismatchBlock ⟨.no, .no, .no⟩ false =
      .ok [{ type := "way", id := 1, refs := some [] }] := rfl

/-- C8 (amended): the relation triple and the dense id/lat/lon arrays are
checked unconditionally, so their mismatches are always fatal; a way's
keys/vals mismatch is fatal exactly when way tags are enabled; the
DenseInfo array mismatch is fatal only when withInfo is on, denseinfo is
present and the group is non-empty, and with withInfo off a dense group
with mismatched DenseInfo arrays parses without error. -/
theorem c8_parallel_arrays (data : Data) (d : DenseMsg) (dinfo : DenseInfoMsg)
    (w : WayMsg) (r : RelMsg) :
    (¬ (r.memids.length = r.types.length ∧ r.memids.length = r.roles_sid.length) →
      parse_rel data r = .error "input format error") ∧
    (¬ (d.id.length = d.lat.length ∧ d.id.length = d.lon.length) →
      parse_dense data d = .error "input format error") ∧
    (data.withTags.way.isOn = true → w.keys.length ≠ w.vals.length →
      parse_way data w = .error "input format error") ∧
    (data.withTags.way.isOn = false → ∃ e, parse_way data w = .ok e) ∧
    (data.withInfo = true → d.denseinfo = some dinfo →
      d.id.length = d.lat.length → d.id.length = d.lon.length → d.id ≠ [] →
      ¬ (d.id.length = dinfo.timestamp.length ∧
          d.id.length = dinfo.changeset.length ∧
          d.id.length = dinfo.uid.length ∧
          d.id.length = dinfo.user_sid.length ∧
          d.id.length = dinfo.version.length) →
      parse_dense data d = .error "input format error") ∧
    (data.withInfo = false → d.id.length = d.lat.length →
      d.id.length = d.lon.length → ∃ out, parse_dense data d = .ok out) := by
  refine ⟨fun hbad => ?_, fun hbad => ?_, fun hsel hk => ?_, fun hoff => ?_,
    fun hwi hdi hl1 hl2 hne hbad => ?_, fun hwi hl1 hl2 => ?_⟩
  · unfold parse_rel
    rw [if_neg hbad]
  · unfold parse_dense
    rw [if_neg hbad]
  · simp [parse_way, hsel, hk]
  · exact ⟨addInfo data w.info (wayRec data w), by simp [parse_way, hoff]⟩
  · obtain ⟨di, ids2, hid⟩ : ∃ a t, d.id = a :: t := by
      cases hc : d.id with
      | nil => exact absurd hc hne
      | cons a t => exact ⟨a, t, rfl⟩
    obtain ⟨dlat, lats2, hlat2⟩ : ∃ a t, d.lat = a :: t := by
      cases hc : d.lat with
      | nil =>
          rw [hc] at hl1
          rw [hid] at hl1
          simp at hl1
      | cons a t => exact ⟨a, t, rfl⟩
    obtain ⟨dlon, lons2, hlon2⟩ : ∃ a t, d.lon = a :: t := by
      cases hc : d.lon with
      | nil =>
          rw [hc] at hl2
          rw [hid] at hl2
          simp at hl2
      | cons a t => exact ⟨a, t, rfl⟩
    have hstep : denseGo data d 0 (di :: ids2) (dlat :: lats2) (dlon :: lons2)
        d.keys_vals 0 0 0 0 0 0 0 = .error "input format error" := by
      simp only [denseGo, hwi, hdi]
      rw [if_neg hbad]
    unfold parse_dense
    rw [if_pos ⟨hl1, hl2⟩, hid, hlat2, hlon2]
    exact hstep
  · unfold parse_dense
    rw [if_pos ⟨hl1, hl2⟩]
    exact denseGo_ok data d (fun h => absurd h (by simp [hwi]))
      d.id d.lat d.lon 0 d.keys_vals 0 0 0 0 0 0 0

/-- Witness for C8: the mismatched relation triple is fatal even with all
tags off, while the mismatched way keys/vals is accepted with way tags
off. -/
theorem c8_witness :
    parse_rel baseData relMismatch = .error "input format error" ∧
      (∃ e, parse_way baseData wayMismatch = .ok e) :=
  ⟨(c8_parallel_arrays baseData denseW ⟨[], [], [], [], [], []⟩ wayMismatch
      relMismatch).1 (by decide),
    (c8_parallel_arrays baseData denseW ⟨[], [], [], [], [], []⟩ wayMismatch
      relMismatch).2.2.2.1 rfl⟩

/-! ## C10: tag configuration does not interfere with non-tag output -/

theorem eraseTags_addTags (e : Entity) (t : List (String × String)) :
    eraseTags (addTags e t) = eraseTags e := by
  cases e
  unfold addTags eraseTags
  split <;> rfl

theorem eraseTags_set_info {e1 e2 : Entity} (h : eraseTags e1 = eraseTags e2)
    (x : Option InfoOut) :
    eraseTags { e1 with info := x } = eraseTags { e2 with info := x } := by
  cases e1
  cases e2
  simp only [eraseTags, Entity.mk.injEq] at h ⊢
  tauto

theorem eraseTags_eq_of_fields {e1 e2 : Entity} (ht : e1.type = e2.type)
    (hid : e1.id = e2.id) (hla : e1.lat = e2.lat) (hlo : e1.lon = e2.lon)
    (hr : e1.refs = e2.refs) (hm : e1.members = e2.members)
    (hi : e1.info = e2.info) : eraseTags e1 = eraseTags e2 := by
  cases e1
  cases e2
  simp only [eraseTags, Entity.mk.injEq] at ht hid hla hlo hr hm hi ⊢
  tauto

theorem fill_info_congr (d1 d2 : Data) (hs : d1.strings = d2.strings)
    (hd : d1.date_granularity = d2.date_granularity) (im : InfoMsg) :
    fill_info d1 im = fill_info d2 im := by
  unfold fill_info
  rw [hs, hd]

theorem denseInfoAt_congr (d1 d2 : Data) (hs : d1.strings = d2.strings)
    (hd : d1.date_granularity = d2.date_granularity) (dinfo : DenseInfoMsg)
    (j : Nat) : denseInfoAt d1 dinfo j = denseInfoAt d2 dinfo j := by
  unfold denseInfoAt
  rw [fill_info_congr d1 d2 hs hd]

theorem attachInfo_erase_congr {x y : Entity} (h : eraseTags x = eraseTags y)
    (io : InfoOut) :
    eraseTags (attachInfo x io) = eraseTags (attachInfo y io) := by
  unfold attachInfo
  by_cases hio : io.isEmpty = true
  · rw [if_pos hio, if_pos hio]
    exact h
  · rw [if_neg hio, if_neg hio]
    exact eraseTags_set_info h _

theorem addInfo_erase_pair (d1 d2 : Data) (hs : d1.strings = d2.strings)
    (hw : d1.withInfo = d2.withInfo)
    (hd : d1.date_granularity = d2.date_granularity) (oi : Option InfoMsg)
    {x y : Entity} (h : eraseTags x = eraseTags y) :
    eraseTags (addInfo d1 oi x) = eraseTags (addInfo d2 oi y) := by
  unfold addInfo
  rw [← hw]
  by_cases hwi : d1.withInfo = true
  · rw [if_pos hwi, if_pos hwi]
    cases oi with
    | none => exact h
    | some im =>
        show eraseTags (attachInfo x (fill_info d1 im)) =
          eraseTags (attachInfo y (fill_info d2 im))
        rw [fill_info_congr d1 d2 hs hd im]
        exact attachInfo_erase_congr h _
  · rw [if_neg hwi, if_neg hwi]
    exact h

theorem parse_node_shape (data : Data) (n : NodeMsg)
    (hk : n.keys.length = n.vals.length) :
    ∃ e, parse_node data n = .ok e ∧
      eraseTags e = eraseTags (addInfo data n.info (nodeRec data n)) := by
  unfold parse_node
  by_cases h1 : data.withTags.node.isOn = true
  · rw [if_pos h1, if_pos hk]
    exact ⟨_, rfl, addInfo_erase_pair data data rfl rfl rfl n.info
      (eraseTags_addTags _ _)⟩
  · rw [if_neg h1]
    exact ⟨_, rfl, rfl⟩

theorem parse_way_shape (data : Data) (w : WayMsg)
    (hk : w.keys.length = w.vals.length) :
    ∃ e, parse_way data w = .ok e ∧
      eraseTags e = eraseTags (addInfo data w.info (wayRec data w)) := by
  unfold parse_way
  by_cases h1 : data.withTags.way.isOn = true
  · rw [if_pos h1, if_pos hk]
    exact ⟨_, rfl, addInfo_erase_pair data data rfl rfl rfl w.info
      (eraseTags_addTags _ _)⟩
  · rw [if_neg h1]
    exact ⟨_, rfl, rfl⟩

theorem parse_rel_shape (data : Data) (r : RelMsg)
    (hm1 : r.memids.length = r.types.length)
    (hm2 : r.memids.length = r.roles_sid.length)
    (hk : r.keys.length = r.vals.length) :
    ∃ e, parse_rel data r = .ok e ∧
      eraseTags e = eraseTags (addInfo data r.info (relRec data r)) := by
  unfold parse_rel
  rw [if_pos ⟨hm1, hm2⟩]
  by_cases h1 : data.withTags.relation.isOn = true
  · rw [if_pos h1, if_pos hk]
    exact ⟨_, rfl, addInfo_erase_pair data data rfl rfl rfl r.info
      (eraseTags_addTags _ _)⟩
  · rw [if_neg h1]
    exact ⟨_, rfl, rfl⟩

theorem parse_node_pair (d1 d2 : Data) (hs : d1.strings = d2.strings)
    (hw : d1.withInfo = d2.withInfo)
    (hd : d1.date_granularity = d2.date_granularity)
    (hg : d1.granularity = d2.granularity)
    (hla : d1.lat_offset = d2.lat_offset) (hlo : d1.lon_offset = d2.lon_offset)
    (n : NodeMsg) (hk : n.keys.length = n.vals.length) :
    ∃ e1 e2, parse_node d1 n = .ok e1 ∧ parse_node d2 n = .ok e2 ∧
      eraseTags e1 = eraseTags e2 := by
  obtain ⟨e1, hp1, he1⟩ := parse_node_shape d1 n hk
  obtain ⟨e2, hp2, he2⟩ := parse_node_shape d2 n hk
  refine ⟨e1, e2, hp1, hp2, ?_⟩
  rw [he1, he2]
  refine addInfo_erase_pair d1 d2 hs hw hd n.info ?_
  unfold nodeRec
  rw [hg, hla, hlo]

theorem parse_way_pair (d1 d2 : Data) (hs : d1.strings = d2.strings)
    (hw : d1.withInfo = d2.withInfo)
    (hd : d1.date_granularity = d2.date_granularity)
    (w : WayMsg) (hk : w.keys.length = w.vals.length) :
    ∃ e1 e2, parse_way d1 w = .ok e1 ∧ parse_way d2 w = .ok e2 ∧
      eraseTags e1 = eraseTags e2 := by
  obtain ⟨e1, hp1, he1⟩ := parse_way_shape d1 w hk
  obtain ⟨e2, hp2, he2⟩ := parse_way_shape d2 w hk
  refine ⟨e1, e2, hp1, hp2, ?_⟩
  rw [he1, he2]
  exact addInfo_erase_pair d1 d2 hs hw hd w.info rfl

theorem parse_rel_pair (d1 d2 : Data) (hs : d1.strings = d2.strings)
    (hw : d1.withInfo = d2.withInfo)
    (hd : d1.date_granularity = d2.date_granularity)
    (r : RelMsg) (hm1 : r.memids.length = r.types.length)
    (hm2 : r.memids.length = r.roles_sid.length)
    (hk : r.keys.length = r.vals.length) :
    ∃ e1 e2, parse_rel d1 r = .ok e1 ∧ parse_rel d2 r = .ok e2 ∧
      eraseTags e1 = eraseTags e2 := by
  obtain ⟨e1, hp1, he1⟩ := parse_rel_shape d1 r hm1 hm2 hk
  obtain ⟨e2, hp2, he2⟩ := parse_rel_shape d2 r hm1 hm2 hk
  refine ⟨e1, e2, hp1, hp2, ?_⟩
  rw [he1, he2]
  refine addInfo_erase_pair d1 d2 hs hw hd r.info ?_
  unfold relRec
  rw [hs]

theorem parse_dense_pair (d1 d2 : Data) (hs : d1.strings = d2.strings)
    (hw : d1.withInfo = d2.withInfo)
    (hd : d1.date_granularity = d2.date_granularity)
    (hg : d1.granularity = d2.granularity)
    (hla : d1.lat_offset = d2.lat_offset) (hlo : d1.lon_offset = d2.lon_offset)
    (d : DenseMsg) (hwf : denseWF d = true) :
    ∃ o1 o2, parse_dense d1 d = .ok o1 ∧ parse_dense d2 d = .ok o2 ∧
      o1.map eraseTags = o2.map eraseTags := by
  have hids : d.id.length = d.lat.length ∧ d.id.length = d.lon.length ∧
      ∀ dinfo, d.denseinfo = some dinfo →
        d.id.length = dinfo.timestamp.length ∧
          d.id.length = dinfo.changeset.length ∧
          d.id.length = dinfo.uid.length ∧
          d.id.length = dinfo.user_sid.length ∧
          d.id.length = dinfo.version.length := by
    simp only [denseWF, Bool.and_eq_true, beq_iff_eq] at hwf
    refine ⟨hwf.1.1.1, hwf.1.1.2, ?_⟩
    intro dinfo hdi
    have hm := hwf.1.2
    rw [hdi] at hm
    simp only [Bool.and_eq_true, beq_iff_eq] at hm
    exact ⟨hm.1.1.1.1, hm.1.1.1.2, hm.1.1.2, hm.1.2, hm.2⟩
  obtain ⟨hl1, hl2, hinfo⟩ := hids
  obtain ⟨o1, ho1⟩ := denseGo_ok d1 d (fun _ => hinfo) d.id d.lat d.lon 0
    d.keys_vals 0 0 0 0 0 0 0
  obtain ⟨o2, ho2⟩ := denseGo_ok d2 d (fun _ => hinfo) d.id d.lat d.lon 0
    d.keys_vals 0 0 0 0 0 0 0
  have hp1 : parse_dense d1 d = .ok o1 := by
    unfold parse_dense
    rw [if_pos ⟨hl1, hl2⟩]
    exact ho1
  have hp2 : parse_dense d2 d = .ok o2 := by
    unfold parse_dense
    rw [if_pos ⟨hl1, hl2⟩]
    exact ho2
  refine ⟨o1, o2, hp1, hp2, ?_⟩
  obtain ⟨hlen1, hspec1⟩ := parse_dense_spec d1 d o1 hp1
  obtain ⟨hlen2, hspec2⟩ := parse_dense_spec d2 d o2 hp2
  apply List.ext_get?
  intro n
  rw [List.get?_map, List.get?_map]
  cases hn1 : o1.get? n with
  | none =>
      have hn2 : o2.get? n = none := by
        rw [List.get?_eq_none] at hn1 ⊢
        omega
      rw [hn2]
  | some e1 =>
      have hlt1 : n < o1.length := by
        by_contra hge
        rw [List.get?_eq_none.mpr (by omega)] at hn1
        cases hn1
      cases hn2 : o2.get? n with
      | none =>
          rw [List.get?_eq_none] at hn2
          omega
      | some e2 =>
          obtain ⟨ht1, hid1, hlat1, hlon1, hr1, hmm1, hi1, hi1n⟩ := hspec1 n e1 hn1
          obtain ⟨ht2, hid2, hlat2, hlon2, hr2, hmm2, hi2, hi2n⟩ := hspec2 n e2 hn2
          have hinfoeq : e1.info = e2.info := by
            cases hwi1 : d1.withInfo with
            | false => rw [hi1n (Or.inl hwi1), hi2n (Or.inl (hw.symm.trans hwi1))]
            | true =>
                cases hdd : d.denseinfo with
                | none => rw [hi1n (Or.inr hdd), hi2n (Or.inr hdd)]
                | some dinfo =>
                    rw [hi1 dinfo hwi1 hdd, hi2 dinfo (hw.symm.trans hwi1) hdd,
                      denseInfoAt_congr d1 d2 hs hd dinfo n]
          have := eraseTags_eq_of_fields (ht1.trans ht2.symm)
            (hid1.trans hid2.symm)
            (by rw [hlat1, hlat2, hg, hla])
            (by rw [hlon1, hlon2, hg, hlo])
            (hr1.trans hr2.symm) (hmm1.trans hmm2.symm) hinfoeq
          simpa using this

theorem parseList_pair {β : Type} (f1 f2 : β → Except String Entity) :
    ∀ (xs : List β),
      (∀ x ∈ xs, ∃ e1 e2, f1 x = .ok e1 ∧ f2 x = .ok e2 ∧
        eraseTags e1 = eraseTags e2) →
      ∃ l1 l2, parseList f1 xs = .ok l1 ∧ parseList f2 xs = .ok l2 ∧
        l1.map eraseTags = l2.map eraseTags := by
  intro xs
  induction xs with
  | nil => exact fun _ => ⟨[], [], rfl, rfl, rfl⟩
  | cons x xs ih =>
      intro hf
      obtain ⟨e1, e2, he1, he2, hee⟩ := hf x (List.mem_cons_self x xs)
      obtain ⟨l1, l2, hl1, hl2, hle⟩ :=
        ih (fun y hy => hf y (List.mem_cons_of_mem x hy))
      refine ⟨e1 :: l1, e2 :: l2, ?_, ?_, ?_⟩
      · simp only [parseList, he1, hl1]
      · simp only [parseList, he2, hl2]
      · simp [hee, hle]

theorem parseGroup_pair (d1 d2 : Data) (hs : d1.strings = d2.strings)
    (hw : d1.withInfo = d2.withInfo)
    (hd : d1.date_granularity = d2.date_granularity)
    (hg : d1.granularity = d2.granularity)
    (hla : d1.lat_offset = d2.lat_offset) (hlo : d1.lon_offset = d2.lon_offset)
    (g : PGroup) (hwf : groupWF g = true) :
    ∃ l1 l2, parseGroup d1 g = .ok l1 ∧ parseGroup d2 g = .ok l2 ∧
      l1.map eraseTags = l2.map eraseTags := by
  simp only [groupWF, Bool.and_eq_true, beq_iff_eq, List.all_eq_true] at hwf
  obtain ⟨⟨⟨⟨hch, hnodes⟩, hdense⟩, hways⟩, hrels⟩ := hwf
  obtain ⟨ns1, ns2, hns1, hns2, hnse⟩ :=
    parseList_pair (parse_node d1) (parse_node d2) g.nodes
      (fun x hx => parse_node_pair d1 d2 hs hw hd hg hla hlo x (hnodes x hx))
  obtain ⟨ws1, ws2, hws1, hws2, hwse⟩ :=
    parseList_pair (parse_way d1) (parse_way d2) g.ways
      (fun x hx => parse_way_pair d1 d2 hs hw hd x (hways x hx))
  obtain ⟨rs1, rs2, hrs1, hrs2, hrse⟩ :=
    parseList_pair (parse_rel d1) (parse_rel d2) g.relations
      (fun x hx => parse_rel_pair d1 d2 hs hw hd x (hrels x hx).1.1
        (hrels x hx).1.2 (hrels x hx).2)
  obtain ⟨ds1, ds2, hds1, hds2, hdse⟩ :
      ∃ ds1 ds2, (match g.dense with
          | some d => parse_dense d1 d
          | none => .ok []) = .ok ds1 ∧
        (match g.dense with
          | some d => parse_dense d2 d
          | none => .ok []) = .ok ds2 ∧
        ds1.map eraseTags = ds2.map eraseTags := by
    cases hgd : g.dense with
    | none => exact ⟨[], [], rfl, rfl, rfl⟩
    | some d =>
        rw [hgd] at hdense
        obtain ⟨o1, o2, ho1, ho2, hoe⟩ :=
          parse_dense_pair d1 d2 hs hw hd hg hla hlo d hdense
        exact ⟨o1, o2, ho1, ho2, hoe⟩
  refine ⟨ns1 ++ ds1 ++ ws1 ++ rs1, ns2 ++ ds2 ++ ws2 ++ rs2, ?_, ?_, ?_⟩
  · unfold parseGroup
    rw [if_neg (by simp [hch])]
    simp only [hns1, hds1, hws1, hrs1]
  · unfold parseGroup
    rw [if_neg (by simp [hch])]
    simp only [hns2, hds2, hws2, hrs2]
  · simp [List.map_append, hnse, hdse, hwse, hrse]

theorem parseGroups_pair (d1 d2 : Data) (hs : d1.strings = d2.strings)
    (hw : d1.withInfo = d2.withInfo)
    (hd : d1.date_granularity = d2.date_granularity)
    (hg : d1.granularity = d2.granularity)
    (hla : d1.lat_offset = d2.lat_offset) (hlo : d1.lon_offset = d2.lon_offset) :
    ∀ (gs : List PGroup), (∀ g ∈ gs, groupWF g = true) →
      ∃ l1 l2, parseGroups d1 gs = .ok l1 ∧ parseGroups d2 gs = .ok l2 ∧
        l1.map eraseTags = l2.map eraseTags := by
  intro gs
  induction gs with
  | nil => exact fun _ => ⟨[], [], rfl, rfl, rfl⟩
  | cons g gs ih =>
      intro hwf
      obtain ⟨l1, l2, hl1, hl2, hle⟩ :=
        parseGroup_pair d1 d2 hs hw hd hg hla hlo g (hwf g (List.mem_cons_self g gs))
      obtain ⟨r1, r2, hr1, hr2, hre⟩ :=
        ih (fun y hy => hwf y (List.mem_cons_of_mem g hy))
      refine ⟨l1 ++ r1, l2 ++ r2, ?_, ?_, ?_⟩
      · simp only [parseGroups, hl1, hr1]
      · simp only [parseGroups, hl2, hr2]
      · simp [List.map_append, hle, hre]

/-- C10: for a well-formed PrimitiveBlock (all declared-parallel arrays of
equal length, no changesets, sentinel-terminated keys_vals) and any two
normalized withTags configurations, parse succeeds under both, the entity
sequences have the same length, and corresponding entities agree on every
property except tags. -/
theorem c10_tag_independence (b : PBlock) (t1 t2 : NormTags) (wi : Bool)
    (hwf : blockWF b = true) :
    ∃ l1 l2, parse b t1 wi = .ok l1 ∧ parse b t2 wi = .ok l2 ∧
      l1.length = l2.length ∧ l1.map eraseTags = l2.map eraseTags := by
  obtain ⟨l1, l2, h1, h2, he⟩ :=
    parseGroups_pair (mkData b t1 wi) (mkData b t2 wi) rfl rfl rfl rfl rfl rfl
      b.primitivegroup
      (fun g hg => List.all_eq_true.mp (by simpa [blockWF] using hwf) g hg)
  refine ⟨l1, l2, h1, h2, ?_, he⟩
  have := congrArg List.length he
  simpa using this

/-- Witness for C10: the well-formed one-dense-group block parses under
all-tags and no-tags configurations to batches that agree except for
tags. -/
theorem c10_witness :
    blockWF c10Block = true ∧
      ∃ l1 l2, parse c10Block ⟨.yes, .yes, .yes⟩ false = .ok l1 ∧
        parse c10Block ⟨.no, .no, .no⟩ false = .ok l2 ∧
        l1.length = l2.length ∧ l1.map eraseTags = l2.map eraseTags :=
  ⟨by decide, c10_tag_independence c10Block ⟨.yes, .yes, .yes⟩ ⟨.no, .no, .no⟩
    false (by decide)⟩

end OsmPbf
